import Mathlib

/-!
Verification of the hlslparser translator (HLSL → GLSL) against its
natural-language specification.  The definitions below are a shallow
embedding of the C++ sources: `HLSLParser.cpp` (type-cast ranking, overload
resolution, member typing, the recursive-descent statement/expression
parser), `GLSLGenerator.cpp` (the GLSL emitter, unique-name selection, the
entry-point plumbing) and `Main.cpp` (the command-line driver).  Pointers
are modelled as `Option`, the node arena by structural values, the interned
string pool by a list of strings, and C `int` arithmetic by `Int`/`Nat`
(all values involved are small, so no overflow wrapping arises).  Code
paths that dereference a null pointer in C++ are modelled as an explicit
`nullDeref` outcome.
-/

namespace M4

/-! ### Base types and their descriptions (HLSLTree.h, HLSLParser.cpp) -/

/-- `HLSLBaseType` from HLSLTree.h, in declaration order. -/
inductive HLSLBaseType where
  | Unknown | Void
  | Float | Float2 | Float3 | Float4 | Float3x3 | Float4x4
  | Half | Half2 | Half3 | Half4 | Half3x3 | Half4x4
  | Bool
  | Int | Int2 | Int3 | Int4
  | Uint | Uint2 | Uint3 | Uint4
  | Texture | Sampler2D | SamplerCube
  | UserDefined
  deriving DecidableEq, Repr, Fintype

/-- `NumericType` from HLSLParser.cpp (`NumericType_Count` is not a value). -/
inductive NumericType where
  | Float | Half | Bool | Int | Uint | NaN
  deriving DecidableEq, Repr, Fintype

/-- `BaseTypeDescription` from HLSLParser.cpp. -/
structure BaseTypeDescription where
  typeName      : String
  numericType   : NumericType
  numComponents : Nat
  numDimensions : Nat
  height        : Nat
  binaryOpRank  : Int
  deriving DecidableEq, Repr

/-- The `_baseTypeDescriptions` table from HLSLParser.cpp, one row per base
type (typeName, numeric family, components, dimensions, height, binary-op
rank). -/
def baseTypeDescriptions : HLSLBaseType → BaseTypeDescription
  | .Unknown     => ⟨"unknown type", .NaN,   0, 0, 0, -1⟩
  | .Void        => ⟨"void",         .NaN,   0, 0, 0, -1⟩
  | .Float       => ⟨"float",        .Float, 1, 0, 1,  0⟩
  | .Float2      => ⟨"float2",       .Float, 2, 1, 1,  0⟩
  | .Float3      => ⟨"float3",       .Float, 3, 1, 3,  0⟩
  | .Float4      => ⟨"float4",       .Float, 4, 1, 4,  0⟩
  | .Float3x3    => ⟨"float3x3",     .Float, 3, 2, 3,  0⟩
  | .Float4x4    => ⟨"float4x4",     .Float, 4, 2, 4,  0⟩
  | .Half        => ⟨"half",         .Half,  1, 0, 1,  1⟩
  | .Half2       => ⟨"half2",        .Half,  2, 1, 1,  1⟩
  | .Half3       => ⟨"half3",        .Half,  3, 1, 1,  1⟩
  | .Half4       => ⟨"half4",        .Half,  4, 1, 1,  1⟩
  | .Half3x3     => ⟨"half3x3",      .Half,  3, 2, 3,  1⟩
  | .Half4x4     => ⟨"half4x4",      .Half,  4, 2, 4,  1⟩
  | .Bool        => ⟨"bool",         .Bool,  1, 0, 1,  4⟩
  | .Int         => ⟨"int",          .Int,   1, 0, 1,  3⟩
  | .Int2        => ⟨"int2",         .Int,   2, 1, 1,  3⟩
  | .Int3        => ⟨"int3",         .Int,   3, 1, 1,  3⟩
  | .Int4        => ⟨"int4",         .Int,   4, 1, 1,  3⟩
  | .Uint        => ⟨"uint",         .Uint,  1, 0, 1,  2⟩
  | .Uint2       => ⟨"uint2",        .Uint,  2, 1, 1,  2⟩
  | .Uint3       => ⟨"uint3",        .Uint,  3, 1, 1,  2⟩
  | .Uint4       => ⟨"uint4",        .Uint,  4, 1, 1,  2⟩
  | .Texture     => ⟨"texture",      .NaN,   1, 0, 0, -1⟩
  | .Sampler2D   => ⟨"sampler2D",    .NaN,   1, 0, 0, -1⟩
  | .SamplerCube => ⟨"samplerCUBE",  .NaN,   1, 0, 0, -1⟩
  | .UserDefined => ⟨"user defined", .NaN,   1, 0, 0, -1⟩

/-- The `_numberTypeRank` 5×5 table from HLSLParser.cpp (rows: source
family, columns: destination family).  The C++ array is indexed only after
a `NumericType_NaN` guard, so the `NaN` rows and columns are unreachable
and set to 0 here. -/
def numberTypeRank : NumericType → NumericType → Nat
  | .Float, .Float => 0 | .Float, .Half => 4 | .Float, .Bool => 4
  | .Float, .Int => 4   | .Float, .Uint => 4
  | .Half, .Float => 1  | .Half, .Half => 0  | .Half, .Bool => 4
  | .Half, .Int => 4    | .Half, .Uint => 4
  | .Bool, .Float => 5  | .Bool, .Half => 5  | .Bool, .Bool => 0
  | .Bool, .Int => 5    | .Bool, .Uint => 5
  | .Int, .Float => 5   | .Int, .Half => 5   | .Int, .Bool => 4
  | .Int, .Int => 0     | .Int, .Uint => 3
  | .Uint, .Float => 5  | .Uint, .Half => 5  | .Uint, .Bool => 4
  | .Uint, .Int => 2    | .Uint, .Uint => 0
  | _, _ => 0

/-- `HLSLType` from HLSLTree.h.  `typeName` is the interned name for
user-defined types (the C++ `NULL` for other types is modelled by `""`);
`arraySize` is a pointer to the size expression, compared by identity in
the cast-rank code, so it is modelled as an optional arena reference. -/
structure HLSLType where
  baseType  : HLSLBaseType
  typeName  : String      := ""
  array     : Bool        := false
  arraySize : Option Nat  := none
  constant  : Bool        := false
  deriving DecidableEq, Repr

/-- A non-array, non-const type with the given base type. -/
def plainType (b : HLSLBaseType) : HLSLType := { baseType := b }

/-- `GetTypeCastRank` from HLSLParser.cpp: the rank of the implicit
conversion from `srcType` to `dstType`, or `-1` when there is none.
Result bits (per the source comment): T R R R P — truncation bit 4,
conversion rank shifted left by one, dimension-promotion bit 0. -/
def getTypeCastRank (srcType dstType : HLSLType) : Int :=
  if srcType.array ≠ dstType.array ∨ srcType.arraySize ≠ dstType.arraySize then
    -1
  else if srcType.baseType = .UserDefined ∧ dstType.baseType = .UserDefined then
    (if srcType.typeName = dstType.typeName then 0 else -1)
  else if srcType.baseType = dstType.baseType then
    0
  else
    let srcDesc := baseTypeDescriptions srcType.baseType
    let dstDesc := baseTypeDescriptions dstType.baseType
    if srcDesc.numericType = .NaN ∨ dstDesc.numericType = .NaN then
      -1
    else
      let result : Nat := numberTypeRank srcDesc.numericType dstDesc.numericType <<< 1
      if srcDesc.numDimensions = 0 ∧ dstDesc.numDimensions > 0 then
        ((result ||| (1 <<< 0) : Nat) : Int)
      else if (srcDesc.numDimensions = dstDesc.numDimensions ∧
                 srcDesc.numComponents > dstDesc.numComponents) ∨
              (srcDesc.numDimensions > 0 ∧ dstDesc.numDimensions = 0) then
        ((result ||| (1 <<< 4) : Nat) : Int)
      else if srcDesc.numDimensions ≠ dstDesc.numDimensions ∨
              srcDesc.numComponents ≠ dstDesc.numComponents then
        -1
      else
        (result : Int)

/-- A base type is numeric when it lies in the
`HLSLBaseType_FirstNumeric ..= HLSLBaseType_LastNumeric` range, which is
exactly when its description's numeric family is not `NaN`. -/
def isNumericBase (b : HLSLBaseType) : Bool :=
  (baseTypeDescriptions b).numericType ≠ NumericType.NaN

/-- The 5×5 numeric-family conversion table exactly as the specification
prints it (rows source, columns destination; `F H B I U`). -/
def specNumericFamilyRank : NumericType → NumericType → Nat
  | .Float, .Float => 0 | .Float, .Half => 4 | .Float, .Bool => 4
  | .Float, .Int => 4   | .Float, .Uint => 4
  | .Half, .Float => 1  | .Half, .Half => 0  | .Half, .Bool => 4
  | .Half, .Int => 4    | .Half, .Uint => 4
  | .Bool, .Float => 5  | .Bool, .Half => 5  | .Bool, .Bool => 0
  | .Bool, .Int => 5    | .Bool, .Uint => 5
  | .Int, .Float => 5   | .Int, .Half => 5   | .Int, .Bool => 4
  | .Int, .Int => 0     | .Int, .Uint => 3
  | .Uint, .Float => 5  | .Uint, .Half => 5  | .Uint, .Bool => 4
  | .Uint, .Int => 2    | .Uint, .Uint => 0
  | _, _ => 0

/-- The specification's wording of the numeric cast rank, stated for a pair
of numeric base types with different families or shapes: take the 5×5
family rank, shift left by 1, set bit 0 on scalar-to-vector/matrix
promotion, set bit 4 on truncation (equal dimensions with more source
components, or vector/matrix source with scalar destination), and return
−1 when dimensions or component counts otherwise differ. -/
def specCastRankNumeric (src dst : HLSLBaseType) : Int :=
  let s := baseTypeDescriptions src
  let d := baseTypeDescriptions dst
  let base : Nat := specNumericFamilyRank s.numericType d.numericType <<< 1
  if s.numDimensions = 0 ∧ d.numDimensions > 0 then
    ((base ||| (1 <<< 0) : Nat) : Int)
  else if (s.numDimensions = d.numDimensions ∧ d.numComponents < s.numComponents) ∨
          (s.numDimensions > 0 ∧ d.numDimensions = 0) then
    ((base ||| (1 <<< 4) : Nat) : Int)
  else if s.numDimensions ≠ d.numDimensions ∨ s.numComponents ≠ d.numComponents then
    -1
  else
    (base : Int)

/-- On identical types every branch of `GetTypeCastRank` that is reached
returns 0: the array flags and size references agree, matching
user-defined names rank 0, and equal base types rank 0. -/
theorem getTypeCastRank_self (t : HLSLType) : getTypeCastRank t t = 0 := by
  unfold getTypeCastRank
  by_cases h : t.baseType = HLSLBaseType.UserDefined <;> simp [h]

/-! ### Functions, intrinsics and overload resolution (HLSLParser.cpp) -/

/-- The parts of `HLSLFunction` (and of the `Intrinsic` wrapper) that
overload resolution and call typing read: the interned name, the return
type and the argument types in order (`numArguments` is the list length). -/
structure Func where
  name       : String
  returnType : HLSLType
  params     : List HLSLType
  deriving DecidableEq, Repr

/-- `CompareFunctionsResult` from HLSLParser.cpp. -/
inductive CompareFunctionsResult where
  | FunctionsEqual | Function1Better | Function2Better
  deriving DecidableEq, Repr

/-- `GetFunctionCallCastRanks` from HLSLParser.cpp: `none` models the
`false` return (null function, arity mismatch, or some argument not
convertible); otherwise the per-argument conversion ranks in call order. -/
def getFunctionCallCastRanks (callArgs : List HLSLType) (f : Option Func) :
    Option (List Int) :=
  match f with
  | none => none
  | some f =>
      if f.params.length = callArgs.length then
        let ranks := List.zipWith getTypeCastRank callArgs f.params
        if ranks.all (fun r => r != -1) then some ranks else none
      else none

/-- One insertion step of the descending sort below. -/
def insertRankDescending (x : Int) : List Int → List Int
  | [] => [x]
  | y :: ys => if y < x then x :: y :: ys else y :: insertRankDescending x ys

/-- `std::sort(ranks, ranks + n, CompareRanks())` from `CompareFunctions`:
the rank vector rearranged into descending order (the comparator is
`rank1 > rank2`; on integers any sorting algorithm yields this list). -/
def sortRanksDescending (ranks : List Int) : List Int :=
  ranks.foldr insertRankDescending []

/-- The element-wise comparison loop of `CompareFunctions`: scan two rank
vectors of equal length left to right; the first position where one rank is
smaller decides, and vectors equal at every position compare equal. -/
def lexCompareRanks : List Int → List Int → CompareFunctionsResult
  | a :: as, b :: bs =>
      if a < b then .Function1Better
      else if b < a then .Function2Better
      else lexCompareRanks as bs
  | _, _ => .FunctionsEqual

/-- `CompareFunctions` from HLSLParser.cpp: candidates that are not viable
lose to viable ones (and tie with each other); two viable candidates are
compared by their descending-sorted rank vectors. -/
def compareFunctions (callArgs : List HLSLType) (function1 function2 : Option Func) :
    CompareFunctionsResult :=
  match getFunctionCallCastRanks callArgs function1,
        getFunctionCallCastRanks callArgs function2 with
  | some ranks1, some ranks2 =>
      lexCompareRanks (sortRanksDescending ranks1) (sortRanksDescending ranks2)
  | some _, none => .Function1Better
  | none, some _ => .Function2Better
  | none, none => .FunctionsEqual

/-- The running state of `MatchFunctionCall`'s scan over the candidates. -/
structure MatchState where
  matchedFunction     : Option Func
  numMatchedOverloads : Nat
  nameMatches         : Bool
  deriving DecidableEq, Repr

/-- One iteration of either candidate loop in `MatchFunctionCall`:
candidates with a different name are skipped; a strictly better candidate
replaces the current best (resetting the overload count to 1), an
indistinguishable one bumps the count, a worse one changes nothing. -/
def matchStep (callArgs : List HLSLType) (name : String) (st : MatchState)
    (f : Func) : MatchState :=
  if f.name = name then
    match compareFunctions callArgs (some f) st.matchedFunction with
    | .Function1Better =>
        { matchedFunction := some f, numMatchedOverloads := 1, nameMatches := true }
    | .FunctionsEqual =>
        { st with numMatchedOverloads := st.numMatchedOverloads + 1, nameMatches := true }
    | .Function2Better => { st with nameMatches := true }
  else st

/-- The outcome of `MatchFunctionCall`: the resolved function, or a `NULL`
return after the diagnostic given. -/
inductive MatchResult where
  | resolved (f : Func)
  | failed (diagnostic : String)
  deriving DecidableEq, Repr

/-- The checks `MatchFunctionCall` performs after both candidate loops:
fail on an ambiguous best candidate (more than one matched overload), or,
with nothing matched, with one of the two not-found diagnostics. -/
def matchResultOf (name : String) (st : MatchState) : MatchResult :=
  match st.matchedFunction with
  | some f =>
      if st.numMatchedOverloads > 1 then
        .failed ("'" ++ name ++ "' " ++ toString st.numMatchedOverloads ++
          " overloads have similar conversions")
      else
        .resolved f
  | none =>
      if st.nameMatches then
        .failed ("'" ++ name ++ "' no overloaded function matched all of the arguments")
      else
        .failed ("Undeclared identifier '" ++ name ++ "'")

/-- `MatchFunctionCall` from HLSLParser.cpp: scan the user-defined
functions, then the intrinsics, with `matchStep`, then apply the final
checks. -/
def matchFunctionCall (userFunctions intrinsics : List Func)
    (callArgs : List HLSLType) (name : String) : MatchResult :=
  let st0 : MatchState := ⟨none, 0, false⟩
  let st1 := userFunctions.foldl (matchStep callArgs name) st0
  matchResultOf name (intrinsics.foldl (matchStep callArgs name) st1)

/-- Whether a candidate is viable for the call (arity matches and every
argument converts). -/
def viableFor (callArgs : List HLSLType) (f : Func) : Bool :=
  (getFunctionCallCastRanks callArgs (some f)).isSome

/-- The sorted rank vector by which `CompareFunctions` orders viable
candidates. -/
def rankKey (callArgs : List HLSLType) (f : Func) : List Int :=
  sortRanksDescending ((getFunctionCallCastRanks callArgs (some f)).getD [])

/-- An intrinsic parameter type: the `Intrinsic` constructors set
`type.baseType` and `type.constant = true` on each argument. -/
def constParam (b : HLSLBaseType) : HLSLType := { baseType := b, constant := true }

/-- The `INTRINSIC_FLOAT1_FUNCTION` macro from HLSLParser.cpp. -/
def intrinsicFloat1Function (n : String) : List Func :=
  [⟨n, plainType .Float,  [constParam .Float]⟩,
   ⟨n, plainType .Float2, [constParam .Float2]⟩,
   ⟨n, plainType .Float3, [constParam .Float3]⟩,
   ⟨n, plainType .Float4, [constParam .Float4]⟩,
   ⟨n, plainType .Half,   [constParam .Half]⟩,
   ⟨n, plainType .Half2,  [constParam .Half2]⟩,
   ⟨n, plainType .Half3,  [constParam .Half3]⟩,
   ⟨n, plainType .Half4,  [constParam .Half4]⟩]

/-- The `INTRINSIC_FLOAT2_FUNCTION` macro from HLSLParser.cpp. -/
def intrinsicFloat2Function (n : String) : List Func :=
  [⟨n, plainType .Float,  [constParam .Float,  constParam .Float]⟩,
   ⟨n, plainType .Float2, [constParam .Float2, constParam .Float2]⟩,
   ⟨n, plainType .Float3, [constParam .Float3, constParam .Float3]⟩,
   ⟨n, plainType .Float4, [constParam .Float4, constParam .Float4]⟩,
   ⟨n, plainType .Half,   [constParam .Half,   constParam .Half]⟩,
   ⟨n, plainType .Half2,  [constParam .Half2,  constParam .Half2]⟩,
   ⟨n, plainType .Half3,  [constParam .Half3,  constParam .Half3]⟩,
   ⟨n, plainType .Half4,  [constParam .Half4,  constParam .Half4]⟩]

/-- The `INTRINSIC_FLOAT3_FUNCTION` macro from HLSLParser.cpp. -/
def intrinsicFloat3Function (n : String) : List Func :=
  [⟨n, plainType .Float,  [constParam .Float,  constParam .Float, constParam .Float]⟩,
   ⟨n, plainType .Float2, [constParam .Float2, constParam .Float, constParam .Float2]⟩,
   ⟨n, plainType .Float3, [constParam .Float3, constParam .Float, constParam .Float3]⟩,
   ⟨n, plainType .Float4, [constParam .Float4, constParam .Float, constParam .Float4]⟩,
   ⟨n, plainType .Half,   [constParam .Half,   constParam .Half,  constParam .Half]⟩,
   ⟨n, plainType .Half2,  [constParam .Half2,  constParam .Half2, constParam .Half2]⟩,
   ⟨n, plainType .Half3,  [constParam .Half3,  constParam .Half3, constParam .Half3]⟩,
   ⟨n, plainType .Half4,  [constParam .Half4,  constParam .Half4, constParam .Half4]⟩]

/-- The `_intrinsic` table from HLSLParser.cpp, in declaration order. -/
def intrinsicTable : List Func :=
  intrinsicFloat1Function "abs" ++
  intrinsicFloat2Function "atan2" ++
  intrinsicFloat3Function "clamp" ++
  intrinsicFloat1Function "cos" ++
  intrinsicFloat3Function "lerp" ++
  intrinsicFloat3Function "smoothstep" ++
  intrinsicFloat1Function "floor" ++
  intrinsicFloat1Function "ceil" ++
  intrinsicFloat1Function "frac" ++
  intrinsicFloat2Function "fmod" ++
  [⟨"clip", plainType .Void, [constParam .Float]⟩,
   ⟨"clip", plainType .Void, [constParam .Float2]⟩,
   ⟨"clip", plainType .Void, [constParam .Float3]⟩,
   ⟨"clip", plainType .Void, [constParam .Float4]⟩,
   ⟨"clip", plainType .Void, [constParam .Half]⟩,
   ⟨"clip", plainType .Void, [constParam .Half2]⟩,
   ⟨"clip", plainType .Void, [constParam .Half3]⟩,
   ⟨"clip", plainType .Void, [constParam .Half4]⟩,
   ⟨"dot", plainType .Float, [constParam .Float,  constParam .Float]⟩,
   ⟨"dot", plainType .Float, [constParam .Float2, constParam .Float2]⟩,
   ⟨"dot", plainType .Float, [constParam .Float3, constParam .Float3]⟩,
   ⟨"dot", plainType .Float, [constParam .Float4, constParam .Float4]⟩,
   ⟨"dot", plainType .Half,  [constParam .Half,   constParam .Half]⟩,
   ⟨"dot", plainType .Half,  [constParam .Half2,  constParam .Half2]⟩,
   ⟨"dot", plainType .Half,  [constParam .Half3,  constParam .Half3]⟩,
   ⟨"dot", plainType .Half,  [constParam .Half4,  constParam .Half4]⟩,
   ⟨"cross", plainType .Float3, [constParam .Float3, constParam .Float3]⟩,
   ⟨"length", plainType .Float, [constParam .Float]⟩,
   ⟨"length", plainType .Float, [constParam .Float2]⟩,
   ⟨"length", plainType .Float, [constParam .Float3]⟩,
   ⟨"length", plainType .Float, [constParam .Float4]⟩,
   ⟨"length", plainType .Half,  [constParam .Half]⟩,
   ⟨"length", plainType .Half,  [constParam .Half2]⟩,
   ⟨"length", plainType .Half,  [constParam .Half3]⟩,
   ⟨"length", plainType .Half,  [constParam .Half4]⟩] ++
  intrinsicFloat2Function "max" ++
  intrinsicFloat2Function "min" ++
  intrinsicFloat2Function "mul" ++
  [⟨"mul", plainType .Float3, [constParam .Float3, constParam .Float3x3]⟩,
   ⟨"mul", plainType .Float4, [constParam .Float4, constParam .Float4x4]⟩,
   ⟨"transpose", plainType .Float3x3, [constParam .Float3x3]⟩,
   ⟨"transpose", plainType .Float4x4, [constParam .Float4x4]⟩] ++
  intrinsicFloat1Function "normalize" ++
  intrinsicFloat2Function "pow" ++
  intrinsicFloat1Function "saturate" ++
  intrinsicFloat1Function "sin" ++
  intrinsicFloat1Function "sqrt" ++
  intrinsicFloat1Function "rsqrt" ++
  intrinsicFloat1Function "rcp" ++
  intrinsicFloat1Function "ddx" ++
  intrinsicFloat1Function "ddy" ++
  intrinsicFloat1Function "sign" ++
  intrinsicFloat2Function "step" ++
  intrinsicFloat2Function "reflect" ++
  [⟨"tex2D",     plainType .Float4, [constParam .Sampler2D, constParam .Float2]⟩,
   ⟨"tex2Dproj", plainType .Float4, [constParam .Sampler2D, constParam .Float4]⟩,
   ⟨"tex2Dlod",  plainType .Float4, [constParam .Sampler2D, constParam .Float4]⟩,
   ⟨"texCUBE",     plainType .Float4, [constParam .SamplerCube, constParam .Float3]⟩,
   ⟨"texCUBEbias", plainType .Float4, [constParam .SamplerCube, constParam .Float4]⟩,
   ⟨"sincos", plainType .Void, [constParam .Float,  constParam .Float,  constParam .Float]⟩,
   ⟨"sincos", plainType .Void, [constParam .Float2, constParam .Float,  constParam .Float2]⟩,
   ⟨"sincos", plainType .Void, [constParam .Float3, constParam .Float,  constParam .Float3]⟩,
   ⟨"sincos", plainType .Void, [constParam .Float4, constParam .Float,  constParam .Float4]⟩,
   ⟨"sincos", plainType .Void, [constParam .Half,   constParam .Half,   constParam .Half]⟩,
   ⟨"sincos", plainType .Void, [constParam .Half2,  constParam .Half2,  constParam .Half2]⟩,
   ⟨"sincos", plainType .Void, [constParam .Half3,  constParam .Half3,  constParam .Half3]⟩,
   ⟨"sincos", plainType .Void, [constParam .Half4,  constParam .Half4,  constParam .Half4]⟩]

/-! ### Properties of the comparison loop of `CompareFunctions` -/

theorem lexCompareRanks_self : ∀ a : List Int, lexCompareRanks a a = .FunctionsEqual
  | [] => rfl
  | x :: as => by
      simp [lexCompareRanks, lexCompareRanks_self as]

theorem lexCompareRanks_eq_of :
    ∀ {a b : List Int}, lexCompareRanks a b = .FunctionsEqual → a.length = b.length →
      a = b
  | [], [], _, _ => rfl
  | x :: as, y :: bs, h, hl => by
      rw [lexCompareRanks] at h
      by_cases h1 : x < y
      · simp [h1] at h
      · by_cases h2 : y < x
        · simp [h1, h2] at h
        · have hxy : x = y := by omega
          have := lexCompareRanks_eq_of (by simpa [h1, h2] using h)
            (by simpa using hl)
          simp [hxy, this]

theorem lexCompareRanks_swap :
    ∀ a b : List Int,
      lexCompareRanks a b = .Function1Better ↔ lexCompareRanks b a = .Function2Better
  | [], [] => by simp [lexCompareRanks]
  | [], _ :: _ => by simp [lexCompareRanks]
  | _ :: _, [] => by simp [lexCompareRanks]
  | x :: as, y :: bs => by
      rw [lexCompareRanks, lexCompareRanks]
      by_cases h1 : x < y
      · have h2 : ¬ y < x := by omega
        simp [h1, h2]
      · by_cases h2 : y < x
        · simp [h1, h2]
        · simpa [h1, h2] using lexCompareRanks_swap as bs

theorem lexCompareRanks_trans :
    ∀ {a b c : List Int}, lexCompareRanks a b = .Function1Better →
      lexCompareRanks b c = .Function1Better → lexCompareRanks a c = .Function1Better
  | [], b, c, h, _ => by simp [lexCompareRanks] at h
  | _ :: _, [], c, h, _ => by simp [lexCompareRanks] at h
  | _ :: _, _ :: _, [], _, h2 => by simp [lexCompareRanks] at h2
  | x :: as, y :: bs, z :: cs, h1, h2 => by
      rw [lexCompareRanks] at h1 h2 ⊢
      by_cases hxy : x < y
      · by_cases hyz : y < z
        · simp [show x < z by omega]
        · by_cases hzy : z < y
          · simp [hxy, hyz, hzy] at h2
          · simp [show x < z by omega]
      · by_cases hyx : y < x
        · simp [hxy, hyx] at h1
        · by_cases hyz : y < z
          · simp [show x < z by omega]
          · by_cases hzy : z < y
            · simp [hxy, hyx, hyz, hzy] at h2
            · have hxz : ¬ x < z := by omega
              have hzx : ¬ z < x := by omega
              have ha : lexCompareRanks as bs = .Function1Better := by
                simpa [hxy, hyx] using h1
              have hb : lexCompareRanks bs cs = .Function1Better := by
                simpa [hyz, hzy] using h2
              simpa [hxz, hzx] using lexCompareRanks_trans ha hb

theorem insertRankDescending_length (x : Int) :
    ∀ l : List Int, (insertRankDescending x l).length = l.length + 1
  | [] => rfl
  | y :: ys => by
      rw [insertRankDescending]
      split
      · simp
      · simp [insertRankDescending_length x ys]

theorem sortRanksDescending_length :
    ∀ l : List Int, (sortRanksDescending l).length = l.length
  | [] => rfl
  | x :: xs => by
      have : sortRanksDescending (x :: xs) =
          insertRankDescending x (sortRanksDescending xs) := rfl
      rw [this, insertRankDescending_length, sortRanksDescending_length xs]
      simp

theorem getFunctionCallCastRanks_length {callArgs : List HLSLType} {f : Func}
    {r : List Int} (h : getFunctionCallCastRanks callArgs (some f) = some r) :
    r.length = callArgs.length := by
  by_cases hl : f.params.length = callArgs.length
  · cases ha : (List.zipWith getTypeCastRank callArgs f.params).all (fun r => r != -1) with
    | false => simp [getFunctionCallCastRanks, hl, ha] at h
    | true =>
      simp [getFunctionCallCastRanks, hl, ha] at h
      rw [← h, List.length_zipWith, hl, min_self]
  · simp [getFunctionCallCastRanks, hl] at h

theorem rankKey_length {callArgs : List HLSLType} {f : Func}
    (h : viableFor callArgs f = true) : (rankKey callArgs f).length = callArgs.length := by
  rw [viableFor] at h
  rcases Option.isSome_iff_exists.mp h with ⟨r, hr⟩
  rw [rankKey, hr, Option.getD_some, sortRanksDescending_length,
    getFunctionCallCastRanks_length hr]

theorem compareFunctions_eq_lex {callArgs : List HLSLType} {f g : Func}
    (hf : viableFor callArgs f = true) (hg : viableFor callArgs g = true) :
    compareFunctions callArgs (some f) (some g) =
      lexCompareRanks (rankKey callArgs f) (rankKey callArgs g) := by
  rw [viableFor] at hf hg
  rcases Option.isSome_iff_exists.mp hf with ⟨rf, hrf⟩
  rcases Option.isSome_iff_exists.mp hg with ⟨rg, hrg⟩
  rw [compareFunctions, hrf, hrg, rankKey, rankKey, hrf, hrg,
    Option.getD_some, Option.getD_some]

theorem compareFunctions_not_viable_left {callArgs : List HLSLType} {f g : Func}
    (hf : viableFor callArgs f = false) (hg : viableFor callArgs g = true) :
    compareFunctions callArgs (some f) (some g) = .Function2Better := by
  rw [viableFor] at hf hg
  rcases Option.isSome_iff_exists.mp hg with ⟨rg, hrg⟩
  have hnone : getFunctionCallCastRanks callArgs (some f) = none := by
    cases hh : getFunctionCallCastRanks callArgs (some f) with
    | none => rfl
    | some r => rw [hh] at hf; cases hf
  rw [compareFunctions, hnone, hrg]

theorem compareFunctions_none_right {callArgs : List HLSLType} {f : Func} :
    compareFunctions callArgs (some f) none =
      (if viableFor callArgs f then .Function1Better else .FunctionsEqual) := by
  rw [compareFunctions, viableFor]
  cases hh : getFunctionCallCastRanks callArgs (some f) with
  | none => simp [getFunctionCallCastRanks]
  | some r => simp [getFunctionCallCastRanks] at hh ⊢

/-! ### The scan invariant of `MatchFunctionCall` -/

/-- The predicate counted by `numMatchedOverloads`: a candidate with the
right name, viable, whose sorted rank vector equals the given key. -/
def keyMatches (callArgs : List HLSLType) (name : String) (k : List Int)
    (g : Func) : Bool :=
  g.name == name && viableFor callArgs g && (rankKey callArgs g == k)

/-- Invariant of `MatchFunctionCall`'s scan after the candidates
`processed` have been examined: either nothing viable with the right name
has been seen, or `matchedFunction` is a viable candidate no processed
viable candidate beats, and `numMatchedOverloads` counts the processed
viable candidates whose key equals its key. -/
def MatchInv (callArgs : List HLSLType) (name : String) (processed : List Func)
    (st : MatchState) : Prop :=
  (st.matchedFunction = none ∧
      ∀ g ∈ processed, g.name = name → viableFor callArgs g = false) ∨
  (∃ m, st.matchedFunction = some m ∧ m ∈ processed ∧ m.name = name ∧
      viableFor callArgs m = true ∧
      (∀ g ∈ processed, g.name = name → viableFor callArgs g = true →
        lexCompareRanks (rankKey callArgs m) (rankKey callArgs g) ≠ .Function2Better) ∧
      st.numMatchedOverloads =
        processed.countP (keyMatches callArgs name (rankKey callArgs m)))

theorem matchInv_step {callArgs : List HLSLType} {name : String}
    {processed : List Func} {st : MatchState} (f : Func)
    (hinv : MatchInv callArgs name processed st) :
    MatchInv callArgs name (processed ++ [f]) (matchStep callArgs name st f) := by
  by_cases hname : f.name = name
  · rcases hinv with ⟨hnone, hno⟩ | ⟨m, hm, hmem, hmname, hmv, hbest, hcount⟩
    · -- no viable candidate seen yet
      cases hfv : viableFor callArgs f with
      | false =>
        left
        have hcmp : compareFunctions callArgs (some f) none
            = .FunctionsEqual := by
          rw [compareFunctions_none_right, hfv]; rfl
        refine ⟨?_, ?_⟩
        · simp [matchStep, hname, hnone, hcmp]
        · intro g hg hgname
          rcases List.mem_append.mp hg with hg | hg
          · exact hno g hg hgname
          · simp at hg; subst hg; exact hfv
      | true =>
        right
        have hcmp : compareFunctions callArgs (some f) none
            = .Function1Better := by
          rw [compareFunctions_none_right, hfv]; rfl
        refine ⟨f, ?_, List.mem_append.mpr (Or.inr (by simp)), hname, hfv, ?_, ?_⟩
        · simp [matchStep, hname, hnone, hcmp]
        · intro g hg hgname hgv
          rcases List.mem_append.mp hg with hg | hg
          · exact absurd hgv (by simp [hno g hg hgname])
          · simp at hg; subst hg
            simp [lexCompareRanks_self]
        · have h0 : processed.countP (keyMatches callArgs name (rankKey callArgs f))
              = 0 := by
            rw [List.countP_eq_zero]
            intro g hg
            cases hgv : viableFor callArgs g with
            | false => simp [keyMatches, hgv]
            | true =>
              by_cases hgname : g.name = name
              · exact absurd hgv (by simp [hno g hg hgname])
              · simp [keyMatches, hgname]
          simp [matchStep, hname, hnone, hcmp, List.countP_append, h0, keyMatches, hfv]
    · -- a best candidate m has been seen
      cases hfv : viableFor callArgs f with
      | false =>
        right
        have hcmp : compareFunctions callArgs (some f) (some m)
            = .Function2Better := compareFunctions_not_viable_left hfv hmv
        refine ⟨m, ?_, List.mem_append.mpr (Or.inl hmem), hmname, hmv, ?_, ?_⟩
        · simp [matchStep, hname, hm, hcmp]
        · intro g hg hgname hgv
          rcases List.mem_append.mp hg with hg | hg
          · exact hbest g hg hgname hgv
          · simp at hg; subst hg; rw [hfv] at hgv; cases hgv
        · have hf0 : keyMatches callArgs name (rankKey callArgs m) f = false := by
            simp [keyMatches, hfv]
          simp [matchStep, hname, hm, hcmp, List.countP_append, hf0, hcount]
      | true =>
        have hcmp : compareFunctions callArgs (some f) (some m)
            = lexCompareRanks (rankKey callArgs f) (rankKey callArgs m) :=
          compareFunctions_eq_lex hfv hmv
        have hlenf := rankKey_length hfv
        have hlenm := rankKey_length hmv
        cases hlex : lexCompareRanks (rankKey callArgs f) (rankKey callArgs m) with
        | Function1Better =>
          -- f strictly better: it becomes the new best with count 1
          right
          refine ⟨f, ?_, List.mem_append.mpr (Or.inr (by simp)), hname, hfv, ?_, ?_⟩
          · simp [matchStep, hname, hm, hcmp, hlex]
          · intro g hg hgname hgv
            rcases List.mem_append.mp hg with hg | hg
            · have hmg := hbest g hg hgname hgv
              cases hmg2 : lexCompareRanks (rankKey callArgs m) (rankKey callArgs g) with
              | Function2Better => exact absurd hmg2 hmg
              | Function1Better =>
                simp [lexCompareRanks_trans hlex hmg2]
              | FunctionsEqual =>
                have := lexCompareRanks_eq_of hmg2
                  (by rw [hlenm, rankKey_length hgv])
                rw [← this, hlex]
                simp
            · simp at hg; subst hg
              simp [lexCompareRanks_self]
          · have h0 : processed.countP (keyMatches callArgs name (rankKey callArgs f))
                = 0 := by
              rw [List.countP_eq_zero]
              intro g hg
              cases hgv : viableFor callArgs g with
              | false => simp [keyMatches, hgv]
              | true =>
                by_cases hgname : g.name = name
                · have hmg := hbest g hg hgname hgv
                  have hk : ¬ rankKey callArgs g = rankKey callArgs f := by
                    intro hk
                    apply hmg
                    rw [← hk] at hlex
                    exact (lexCompareRanks_swap _ _).mp hlex
                  simp [keyMatches, hk]
                · simp [keyMatches, hgname]
            simp [matchStep, hname, hm, hcmp, hlex, List.countP_append, h0,
              keyMatches, hfv]
        | FunctionsEqual =>
          -- f ties with m: the overload count grows by one
          right
          have hkey : rankKey callArgs f = rankKey callArgs m :=
            lexCompareRanks_eq_of hlex (by rw [hlenf, hlenm])
          refine ⟨m, ?_, List.mem_append.mpr (Or.inl hmem), hmname, hmv, ?_, ?_⟩
          · simp [matchStep, hname, hm, hcmp, hlex]
          · intro g hg hgname hgv
            rcases List.mem_append.mp hg with hg | hg
            · exact hbest g hg hgname hgv
            · simp at hg; subst hg
              rw [hkey]
              simp [lexCompareRanks_self]
          · have hf1 : keyMatches callArgs name (rankKey callArgs m) f = true := by
              simp [keyMatches, hname, hfv, hkey]
            simp [matchStep, hname, hm, hcmp, hlex, List.countP_append, hf1, hcount]
        | Function2Better =>
          -- f is worse: nothing changes
          right
          refine ⟨m, ?_, List.mem_append.mpr (Or.inl hmem), hmname, hmv, ?_, ?_⟩
          · simp [matchStep, hname, hm, hcmp, hlex]
          · intro g hg hgname hgv
            rcases List.mem_append.mp hg with hg | hg
            · exact hbest g hg hgname hgv
            · simp at hg; subst hg
              rw [(lexCompareRanks_swap _ _).mpr hlex]
              simp
          · have hf0 : keyMatches callArgs name (rankKey callArgs m) f = false := by
              have hk : ¬ rankKey callArgs f = rankKey callArgs m := by
                intro hk
                rw [hk, lexCompareRanks_self] at hlex
                cases hlex
              simp [keyMatches, hk]
            simp [matchStep, hname, hm, hcmp, hlex, List.countP_append, hf0, hcount]
  · -- the candidate's name does not match: the state is unchanged
    have hstep : matchStep callArgs name st f = st := by simp [matchStep, hname]
    rcases hinv with ⟨hnone, hno⟩ | ⟨m, hm, hmem, hmname, hmv, hbest, hcount⟩
    · left
      refine ⟨by rw [hstep]; exact hnone, ?_⟩
      intro g hg hgname
      rcases List.mem_append.mp hg with hg | hg
      · exact hno g hg hgname
      · simp at hg; subst hg; exact absurd hgname hname
    · right
      refine ⟨m, by rw [hstep]; exact hm, List.mem_append.mpr (Or.inl hmem),
        hmname, hmv, ?_, ?_⟩
      · intro g hg hgname hgv
        rcases List.mem_append.mp hg with hg | hg
        · exact hbest g hg hgname hgv
        · simp at hg; subst hg; exact absurd hgname hname
      · have hf0 : keyMatches callArgs name (rankKey callArgs m) f = false := by
          simp [keyMatches, hname]
        rw [hstep, List.countP_append]
        simp [hf0, hcount]

theorem matchInv_foldl {callArgs : List HLSLType} {name : String} :
    ∀ (l : List Func) (processed : List Func) (st : MatchState),
      MatchInv callArgs name processed st →
      MatchInv callArgs name (processed ++ l) (l.foldl (matchStep callArgs name) st)
  | [], processed, st, hinv => by simpa using hinv
  | f :: l, processed, st, hinv => by
      have h1 := matchInv_step f hinv
      have h2 := matchInv_foldl l (processed ++ [f]) (matchStep callArgs name st f) h1
      simpa [List.append_assoc] using h2

theorem countP_two_le {α : Type} (p : α → Bool) :
    ∀ {l : List α} {a b : α}, a ∈ l → b ∈ l → a ≠ b → p a = true → p b = true →
      2 ≤ l.countP p
  | x :: l, a, b, ha, hb, hab, hpa, hpb => by
      rcases List.mem_cons.mp ha with rfl | ha2
      · rcases List.mem_cons.mp hb with rfl | hb2
        · exact absurd rfl hab
        · have h1 : 0 < l.countP p := List.countP_pos_iff.mpr ⟨b, hb2, hpb⟩
          have hc : (a :: l).countP p = l.countP p + 1 := by simp [hpa]
          rw [hc]
          omega
      · rcases List.mem_cons.mp hb with rfl | hb2
        · have h1 : 0 < l.countP p := List.countP_pos_iff.mpr ⟨a, ha2, hpa⟩
          have hc : (b :: l).countP p = l.countP p + 1 := by simp [hpb]
          rw [hc]
          omega
        · have h2 := countP_two_le p ha2 hb2 hab hpa hpb
          rw [List.countP_cons]
          omega

theorem matchResultOf_resolved {name : String} {st : MatchState} {f : Func}
    (h : matchResultOf name st = .resolved f) :
    st.matchedFunction = some f ∧ ¬ st.numMatchedOverloads > 1 := by
  rw [matchResultOf] at h
  cases hmf : st.matchedFunction with
  | none =>
    rw [hmf] at h
    by_cases hn : st.nameMatches = true <;> simp [hn] at h
  | some m =>
    rw [hmf] at h
    by_cases hc : st.numMatchedOverloads > 1
    · simp [hc] at h
    · simp [hc] at h
      exact ⟨by rw [h], hc⟩

/-- The unique-winner property of the candidate scan, extracted from the
invariant: a resolved call names a viable candidate that
`CompareFunctions` ranks strictly better than every other viable
same-named candidate among the user functions and intrinsics scanned. -/
theorem matchFunctionCall_resolved_unique
    (userFunctions intrinsics : List Func) (callArgs : List HLSLType)
    (name : String) (f : Func)
    (hres : matchFunctionCall userFunctions intrinsics callArgs name = .resolved f) :
    viableFor callArgs f = true ∧
      ∀ g ∈ userFunctions ++ intrinsics, g.name = name →
        viableFor callArgs g = true → g ≠ f →
        compareFunctions callArgs (some f) (some g) = .Function1Better := by
  rw [matchFunctionCall] at hres
  rcases matchResultOf_resolved hres with ⟨hmf, hcnt⟩
  rw [← List.foldl_append] at hmf hcnt
  have hinv0 : MatchInv callArgs name [] ⟨none, 0, false⟩ := Or.inl ⟨rfl, by simp⟩
  have hinv := @matchInv_foldl callArgs name
    (userFunctions ++ intrinsics) [] ⟨none, 0, false⟩ hinv0
  rw [List.nil_append] at hinv
  rcases hinv with ⟨hn, _⟩ | ⟨m, hm, hmem, hmname, hmv, hbest, hcount⟩
  · rw [hn] at hmf; cases hmf
  · rw [hm] at hmf
    have hmf2 : m = f := by injection hmf
    subst hmf2
    refine ⟨hmv, ?_⟩
    intro g hg hgname hgv hgf
    rw [compareFunctions_eq_lex hmv hgv]
    cases hlex : lexCompareRanks (rankKey callArgs m) (rankKey callArgs g) with
    | Function1Better => rfl
    | Function2Better => exact absurd hlex (hbest g hg hgname hgv)
    | FunctionsEqual =>
      exfalso
      have hkey : rankKey callArgs m = rankKey callArgs g :=
        lexCompareRanks_eq_of hlex (by rw [rankKey_length hmv, rankKey_length hgv])
      have hpm : keyMatches callArgs name (rankKey callArgs m) m = true := by
        simp [keyMatches, hmname, hmv]
      have hpg : keyMatches callArgs name (rankKey callArgs m) g = true := by
        simp [keyMatches, hgname, hgv, hkey.symm]
      have h2 := countP_two_le (keyMatches callArgs name (rankKey callArgs m))
        hmem hg (fun h => hgf (h.symm)) hpm hpg
      rw [← hcount] at h2
      omega

/-! ### Claim theorems C2 and C4 -/

/-- C2: overload resolution computes each viable candidate's per-argument
conversion-rank vector (`getFunctionCallCastRanks`), sorts it descending
and compares element-wise left to right (`compareFunctions`); a call
resolves only to a candidate strictly better than every other viable
same-named candidate, user-defined and intrinsic combined; and
`g(float,int)` with `g(int,float)` called on two int literals fails with
the diagnostic "2 overloads have similar conversions" (while `f(float)` /
`f(float2)` called on an int literal resolves to `f(float)`). -/
theorem claim_C2_overload_resolution :
    (∀ (userFunctions intrinsics : List Func) (callArgs : List HLSLType)
        (name : String) (f : Func),
        matchFunctionCall userFunctions intrinsics callArgs name = .resolved f →
        viableFor callArgs f = true ∧
          ∀ g ∈ userFunctions ++ intrinsics, g.name = name →
            viableFor callArgs g = true → g ≠ f →
            compareFunctions callArgs (some f) (some g) = .Function1Better)
    ∧ matchFunctionCall
        [⟨"g", plainType .Void, [plainType .Float, plainType .Int]⟩,
         ⟨"g", plainType .Void, [plainType .Int, plainType .Float]⟩]
        intrinsicTable [plainType .Int, plainType .Int] "g"
        = .failed "'g' 2 overloads have similar conversions"
    ∧ matchFunctionCall
        [⟨"f", plainType .Void, [plainType .Float]⟩,
         ⟨"f", plainType .Void, [plainType .Float2]⟩]
        intrinsicTable [plainType .Int] "f"
        = .resolved ⟨"f", plainType .Void, [plainType .Float]⟩ := by
  refine ⟨matchFunctionCall_resolved_unique, ?_, ?_⟩ <;>
    · set_option maxRecDepth 10000 in decide

/-- C4: `GetTypeCastRank(T, T) = 0` for every recognized type `T`, and on
non-array numeric types with different base types the rank agrees with the
specification's formula (family rank from the 5×5 table shifted left by
one, bit 0 on scalar-to-vector/matrix promotion, bit 4 on truncation, −1
when shapes otherwise differ); concretely `int → float` ranks
`5 << 1 = 10`. -/
theorem claim_C4_type_cast_rank :
    (∀ t : HLSLType, getTypeCastRank t t = 0)
    ∧ (∀ src dst : HLSLBaseType, isNumericBase src = true → isNumericBase dst = true →
        src ≠ dst →
        getTypeCastRank (plainType src) (plainType dst) = specCastRankNumeric src dst)
    ∧ getTypeCastRank (plainType .Int) (plainType .Float) = 10 :=
  ⟨getTypeCastRank_self, by decide, by decide⟩

/-! ### Member typing (`HLSLParser::GetMemberType`) -/

/-- `HLSLStructField` from HLSLTree.h (the `nextField` chain becomes the
containing list). -/
structure HLSLStructField where
  name : String
  type : HLSLType
  semantic : Option String := none
  deriving DecidableEq, Repr

/-- `HLSLStruct` from HLSLTree.h. -/
structure HLSLStruct where
  name : String
  fields : List HLSLStructField
  deriving DecidableEq, Repr

/-- The outcome of `GetMemberType`: `success` models a `true` return with
the member type written to the out-parameter, `failure` a `false` return,
carrying the diagnostic when `Error` was called first. -/
inductive MemberTypeResult where
  | success (memberType : HLSLType)
  | failure (diagnostic : Option String)
  deriving DecidableEq, Repr

/-- The per-character test of the swizzle loop in `GetMemberType`: the
character must be one of `xyzwrgba`. -/
def swizzleCharOk (c : Char) : Bool :=
  c == 'x' || c == 'y' || c == 'z' || c == 'w' ||
  c == 'r' || c == 'g' || c == 'b' || c == 'a'

/-- The scalar/vector swizzle loop of `GetMemberType`: scan the accessor,
failing at the first character outside `xyzwrgba`, otherwise counting the
length. -/
def checkSwizzleChars : List Char → Option Nat
  | [] => some 0
  | c :: cs =>
      if swizzleCharOk c then (checkSwizzleChars cs).map (· + 1) else none

/-- The matrix-element loop of `GetMemberType`: each `_mRC` (zero-based)
or `_RC` (one-based) pair must have digits in range (`R < height`,
`C < components`, compared as C ints, so a one-based `_0C` index becomes
−1 and passes the `>=` tests); the accessor must be consumed entirely.
Returns the number of pairs, or `none` for the plain `false` return. -/
def matrixAccessorLoop (height comps : Nat) : List Char → Nat → Option Nat
  | [], count => some count
  | '_' :: 'm' :: d1 :: d2 :: rest, count =>
      if d1.isDigit ∧ d2.isDigit then
        let r : Int := (d1.toNat : Int) - ('0'.toNat : Int)
        let c : Int := (d2.toNat : Int) - ('0'.toNat : Int)
        if r ≥ (height : Int) ∨ c ≥ (comps : Int) then none
        else matrixAccessorLoop height comps rest (count + 1)
      else none
  | '_' :: 'm' :: _, _ => none
  | '_' :: d1 :: d2 :: rest, count =>
      if d1.isDigit ∧ d2.isDigit then
        let r : Int := (d1.toNat : Int) - ('0'.toNat : Int) - 1
        let c : Int := (d2.toNat : Int) - ('0'.toNat : Int) - 1
        if r ≥ (height : Int) ∨ c ≥ (comps : Int) then none
        else matrixAccessorLoop height comps rest (count + 1)
      else none
  | '_' :: _, _ => none
  | _ :: _, _ => none

/-- The `floatType` result array of `GetMemberType` (indexed by
`swizzleLength - 1`; the C index −1 for a zero-length accessor is
unreachable, the parser never produces an empty identifier). -/
def floatTypeArray : List HLSLBaseType := [.Float, .Float2, .Float3, .Float4]

/-- The `halfType` result array of `GetMemberType`. -/
def halfTypeArray : List HLSLBaseType := [.Half, .Half2, .Half3, .Half4]

/-- The `intType` result array of `GetMemberType`. -/
def intTypeArray : List HLSLBaseType := [.Int, .Int2, .Int3, .Int4]

/-- The `uintType` result array of `GetMemberType`. -/
def uintTypeArray : List HLSLBaseType := [.Uint, .Uint2, .Uint3, .Uint4]

/-- The tail of `GetMemberType` shared by the swizzle and matrix paths:
reject lengths above 4 with the "Invalid swizzle" diagnostic, then pick
the result base type by numeric family and length.  The `default` switch
case (`ASSERT(0)`, e.g. for `bool`) returns `true` with the out-parameter
untouched, modelled by returning `memberType` unchanged. -/
def memberSwizzleResult (fieldName : String) (memberType : HLSLType)
    (family : NumericType) (swizzleLength : Nat) : MemberTypeResult :=
  if swizzleLength > 4 then
    .failure (some ("Invalid swizzle '" ++ fieldName ++ "'"))
  else
    match family with
    | .Float => .success { memberType with
        baseType := floatTypeArray.getD (swizzleLength - 1) .Unknown }
    | .Half => .success { memberType with
        baseType := halfTypeArray.getD (swizzleLength - 1) .Unknown }
    | .Int => .success { memberType with
        baseType := intTypeArray.getD (swizzleLength - 1) .Unknown }
    | .Uint => .success { memberType with
        baseType := uintTypeArray.getD (swizzleLength - 1) .Unknown }
    | _ => .success memberType

/-- `HLSLParser::GetMemberType`: member lookup on user-defined types,
swizzle typing on scalars/vectors, matrix-element typing on matrices.
`memberType` is the out-parameter's value on entry (the call site passes a
default-initialized type). -/
def getMemberType (userTypes : List HLSLStruct) (objectType : HLSLType)
    (fieldName : String) (memberType : HLSLType) : MemberTypeResult :=
  if objectType.baseType = .UserDefined then
    match userTypes.find? (fun st => st.name == objectType.typeName) with
    | some st =>
        match st.fields.find? (fun fl => fl.name == fieldName) with
        | some fl => .success fl.type
        | none => .failure none
    | none => .failure none
  else if (baseTypeDescriptions objectType.baseType).numericType = .NaN then
    .failure none
  else if (baseTypeDescriptions objectType.baseType).numDimensions ≤ 1 then
    match checkSwizzleChars fieldName.toList with
    | none => .failure (some ("Invalid swizzle '" ++ fieldName ++ "'"))
    | some len =>
        memberSwizzleResult fieldName memberType
          (baseTypeDescriptions objectType.baseType).numericType len
  else
    match matrixAccessorLoop (baseTypeDescriptions objectType.baseType).height
        (baseTypeDescriptions objectType.baseType).numComponents
        fieldName.toList 0 with
    | none => .failure none
    | some len =>
        memberSwizzleResult fieldName memberType
          (baseTypeDescriptions objectType.baseType).numericType len

/-- The specification's result table for scalar/vector swizzles:
`{float,half,int,uint} × {length 1..4}`. -/
def swizzleResultBase : NumericType → Nat → Option HLSLBaseType
  | .Float, 1 => some .Float | .Float, 2 => some .Float2
  | .Float, 3 => some .Float3 | .Float, 4 => some .Float4
  | .Half, 1 => some .Half | .Half, 2 => some .Half2
  | .Half, 3 => some .Half3 | .Half, 4 => some .Half4
  | .Int, 1 => some .Int | .Int, 2 => some .Int2
  | .Int, 3 => some .Int3 | .Int, 4 => some .Int4
  | .Uint, 1 => some .Uint | .Uint, 2 => some .Uint2
  | .Uint, 3 => some .Uint3 | .Uint, 4 => some .Uint4
  | _, _ => none

theorem checkSwizzleChars_ok :
    ∀ {chars : List Char}, (∀ c ∈ chars, swizzleCharOk c = true) →
      checkSwizzleChars chars = some chars.length
  | [], _ => rfl
  | c :: cs, h => by
      have hc : swizzleCharOk c = true := h c (List.mem_cons_self c cs)
      have hcs := checkSwizzleChars_ok (fun d hd => h d (List.mem_cons_of_mem c hd))
      simp [checkSwizzleChars, hc, hcs]

theorem checkSwizzleChars_bad :
    ∀ {chars : List Char}, (∃ c ∈ chars, swizzleCharOk c = false) →
      checkSwizzleChars chars = none
  | c :: cs, h => by
      rcases h with ⟨d, hd, hbad⟩
      rcases List.mem_cons.mp hd with rfl | hd2
      · simp [checkSwizzleChars, hbad]
      · cases hc : swizzleCharOk c with
        | true => simp [checkSwizzleChars, hc, checkSwizzleChars_bad ⟨d, hd2, hbad⟩]
        | false => simp [checkSwizzleChars, hc]

/-- The four numeric families that have swizzle result types. -/
def famOk (f : NumericType) : Bool :=
  f == .Float || f == .Half || f == .Int || f == .Uint

theorem swizzleResultBase_isSome {f : NumericType} {n : Nat}
    (hf : famOk f = true) (h1 : 1 ≤ n) (h4 : n ≤ 4) :
    (swizzleResultBase f n).isSome = true := by
  cases f <;> simp [famOk] at hf <;> interval_cases n <;> simp [swizzleResultBase]

theorem memberSwizzleResult_ok {fieldName : String} {m0 : HLSLType}
    {f : NumericType} {n : Nat}
    (hf : famOk f = true) (h1 : 1 ≤ n) (h4 : n ≤ 4) :
    memberSwizzleResult fieldName m0 f n =
      .success { m0 with baseType := (swizzleResultBase f n).getD .Unknown } := by
  cases f <;> simp [famOk] at hf <;> interval_cases n <;>
    simp [memberSwizzleResult, swizzleResultBase, floatTypeArray, halfTypeArray,
      intTypeArray, uintTypeArray]

/-- C7: on a scalar or vector of family float/half/int/uint, a member
accessor whose characters all lie in `xyzwrgba` and whose length is 1..4
types as the same-family type with that many components; a character
outside the set draws the "Invalid swizzle" diagnostic, and so does
length 5 (`v.xxxxx`); `float4 v; v.wwx` types as `float3`. -/
theorem claim_C7_swizzle_member_typing :
    (∀ (userTypes : List HLSLStruct) (objectType : HLSLType) (chars : List Char)
        (m0 : HLSLType),
        famOk (baseTypeDescriptions objectType.baseType).numericType = true →
        (baseTypeDescriptions objectType.baseType).numDimensions ≤ 1 →
        chars ≠ [] → chars.length ≤ 4 →
        (∀ c ∈ chars, swizzleCharOk c = true) →
        (swizzleResultBase (baseTypeDescriptions objectType.baseType).numericType
            chars.length).isSome = true ∧
          getMemberType userTypes objectType (String.mk chars) m0 =
            .success { m0 with baseType :=
              (swizzleResultBase
                (baseTypeDescriptions objectType.baseType).numericType
                chars.length).getD .Unknown })
    ∧ (∀ (userTypes : List HLSLStruct) (objectType : HLSLType) (chars : List Char)
        (m0 : HLSLType),
        famOk (baseTypeDescriptions objectType.baseType).numericType = true →
        (baseTypeDescriptions objectType.baseType).numDimensions ≤ 1 →
        (∃ c ∈ chars, swizzleCharOk c = false) →
        getMemberType userTypes objectType (String.mk chars) m0 =
          .failure (some ("Invalid swizzle '" ++ String.mk chars ++ "'")))
    ∧ getMemberType [] (plainType .Float4) "xxxxx" (plainType .Unknown)
        = .failure (some "Invalid swizzle 'xxxxx'")
    ∧ getMemberType [] (plainType .Float4) "wwx" (plainType .Unknown)
        = .success (plainType .Float3) := by
  have hbranch : ∀ (objectType : HLSLType),
      famOk (baseTypeDescriptions objectType.baseType).numericType = true →
      ¬ objectType.baseType = .UserDefined ∧
        ¬ (baseTypeDescriptions objectType.baseType).numericType = .NaN := by
    intro objectType hf
    constructor
    · intro h
      rw [h] at hf
      simp [famOk, baseTypeDescriptions] at hf
    · intro h
      rw [h] at hf
      simp [famOk] at hf
  refine ⟨?_, ?_, by decide, by decide⟩
  · intro userTypes objectType chars m0 hf hdim hne hlen hok
    rcases hbranch objectType hf with ⟨hUD, hNaN⟩
    have h1 : 1 ≤ chars.length := List.length_pos.mpr hne
    refine ⟨swizzleResultBase_isSome hf h1 hlen, ?_⟩
    have hchk : checkSwizzleChars (String.mk chars).toList = some chars.length := by
      rw [show (String.mk chars).toList = chars from rfl]
      exact checkSwizzleChars_ok hok
    rw [getMemberType, if_neg hUD, if_neg hNaN, if_pos hdim, hchk]
    exact memberSwizzleResult_ok hf h1 hlen
  · intro userTypes objectType chars m0 hf hdim hbad
    rcases hbranch objectType hf with ⟨hUD, hNaN⟩
    have hchk : checkSwizzleChars (String.mk chars).toList = none := by
      rw [show (String.mk chars).toList = chars from rfl]
      exact checkSwizzleChars_bad hbad
    rw [getMemberType, if_neg hUD, if_neg hNaN, if_pos hdim, hchk]

/-! ### Unique-name selection (`GLSLGenerator::ChooseUniqueName`) -/

/-- The tree's interned-string pool (`StringPool`, a `std::set<std::string>`
populated with every identifier and file name the parser adds), as the list
of its members; `HLSLTree::GetContainsString` is membership. -/
def getContainsString (pool : List String) (s : String) : Bool := pool.contains s

/-- The `for (i = 0; i < 1024; ++i)` loop of `ChooseUniqueName`: `fuel`
counts the remaining iterations (initially 1024).  Each iteration writes
`base ++ i` into the destination buffer and returns `true` on the first
candidate not present in the pool; when the loop exhausts, the function
returns `false` with the buffer still holding the last candidate written,
`base ++ "1023"`. -/
def chooseUniqueNameLoop (pool : List String) (base : String) :
    Nat → Nat → Bool × String
  | _, 0 => (false, base ++ toString 1023)
  | i, fuel + 1 =>
      let dst := base ++ toString i
      if getContainsString pool dst then chooseUniqueNameLoop pool base (i + 1) fuel
      else (true, dst)

/-- `GLSLGenerator::ChooseUniqueName`: try `base0, base1, … base1023` and
return the first that is not in the tree's string pool, together with the
`bool` result of the C++ function. -/
def chooseUniqueName (pool : List String) (base : String) : Bool × String :=
  chooseUniqueNameLoop pool base 0 1024

theorem chooseUniqueNameLoop_true_not_mem {pool : List String} {base : String} :
    ∀ {fuel i : Nat}, (chooseUniqueNameLoop pool base i fuel).1 = true →
      (chooseUniqueNameLoop pool base i fuel).2 ∉ pool
  | 0, i, h => by simp [chooseUniqueNameLoop] at h
  | fuel + 1, i, h => by
      rw [chooseUniqueNameLoop] at h ⊢
      cases hc : getContainsString pool (base ++ toString i) with
      | true =>
        rw [hc] at h
        simp only [if_true]
        exact chooseUniqueNameLoop_true_not_mem (by simpa [hc] using h)
      | false =>
        simp only [hc, Bool.false_eq_true, if_false]
        intro hmem
        rw [getContainsString] at hc
        simp at hc
        exact hc hmem

theorem chooseUniqueNameLoop_all_contained {pool : List String} {base : String} :
    ∀ (fuel i : Nat),
      (∀ j, i ≤ j → j < i + fuel → getContainsString pool (base ++ toString j) = true) →
      chooseUniqueNameLoop pool base i fuel = (false, base ++ toString 1023)
  | 0, i, _ => rfl
  | fuel + 1, i, h => by
      have hc : getContainsString pool (base ++ toString i) = true :=
        h i (le_refl i) (by omega)
      rw [chooseUniqueNameLoop, hc, if_pos rfl]
      exact chooseUniqueNameLoop_all_contained fuel (i + 1)
        (fun j hj1 hj2 => h j (by omega) (by omega))

/-- A string pool in which every candidate `x0 … x1023` is already
interned (a source program can produce it: one declared identifier per
candidate). -/
def exhaustedPool : List String := (List.range 1024).map (fun i => "x" ++ toString i)

/-- C9 counterexample: when the source program already uses all of
`x0 … x1023`, `ChooseUniqueName` exhausts its 1024 candidates, returns
false, and leaves `x1023` in the buffer — a name that is in the string
pool, so the produced name does collide with an identifier of the
program.  The claim's universally quantified collision-freedom is
therefore false. -/
theorem claim_C9_unique_name_counterexample :
    chooseUniqueName exhaustedPool "x" = (false, "x1023") ∧ "x1023" ∈ exhaustedPool := by
  constructor
  · have hcont : ∀ j, 0 ≤ j → j < 0 + 1024 →
        getContainsString exhaustedPool ("x" ++ toString j) = true := by
      intro j _ hj
      have hmem : ("x" ++ toString j) ∈ exhaustedPool :=
        List.mem_map.mpr ⟨j, List.mem_range.mpr (by omega), rfl⟩
      simp [getContainsString]
      exact hmem
    rw [chooseUniqueName, chooseUniqueNameLoop_all_contained 1024 0 hcont]
    rfl
  · exact List.mem_map.mpr ⟨1023, List.mem_range.mpr (by omega), rfl⟩

/-- C9 (amended): whenever `ChooseUniqueName` succeeds — it returns true
because some candidate `base0 … base1023` is not interned — the produced
name is absent from the string pool, and the pool holds every identifier
of the source program, so the name collides with none of them.  (When all
1024 candidates are interned it returns false with `base1023`, which does
collide; see the counterexample.)  Concretely, with `x0` interned the
procedure yields `x1`. -/
theorem claim_C9_unique_name_amended :
    (∀ (pool : List String) (base : String),
        (chooseUniqueName pool base).1 = true → (chooseUniqueName pool base).2 ∉ pool)
    ∧ chooseUniqueName ["x0"] "x" = (true, "x1") ∧ "x1" ∉ ["x0"] := by
  refine ⟨?_, by decide, by decide⟩
  intro pool base h
  exact chooseUniqueNameLoop_true_not_mem h

/-! ### The AST node kinds shared by the parser and the GLSL emitter -/

/-- `HLSLBinaryOp` from HLSLTree.h, in declaration order (the order indexes
`_binaryOpPriority`). -/
inductive HLSLBinaryOp where
  | And | Or | Add | Sub | Mul | Div
  | Less | Greater | LessEqual | GreaterEqual | Equal | NotEqual
  | Assign | AddAssign | SubAssign | MulAssign | DivAssign
  deriving DecidableEq, Repr

/-- `HLSLUnaryOp` from HLSLTree.h. -/
inductive HLSLUnaryOp where
  | Negative | Positive | Not
  | PreIncrement | PreDecrement | PostIncrement | PostDecrement
  deriving DecidableEq, Repr

/-- `HLSLArgumentModifier` from HLSLTree.h. -/
inductive HLSLArgumentModifier where
  | NoModifier | In | Inout | Uniform
  deriving DecidableEq, Repr

/-- The expression nodes of HLSLTree.h.  Every node carries its
`expressionType`; child pointers are `Option`, argument chains
(`nextExpression`) are lists.  A literal's `type` field together with the
union payload is split into the three configurations that occur: a
float/half literal carries its `String_FormatFloat` text (float values are
not modelled further), an int/uint literal its `iValue`, a bool literal
its `bValue`.  A function call keeps the non-owning reference to the
resolved function as a `Func` value. -/
inductive Expr where
  | identifierExpr (name : String) (global : Bool) (exprType : HLSLType)
  | constructorExpr (ctorType : HLSLType) (args : List Expr) (exprType : HLSLType)
  | castingExpr (castType : HLSLType) (operand : Option Expr) (exprType : HLSLType)
  | literalFloatExpr (litType : HLSLBaseType) (text : String) (exprType : HLSLType)
  | literalIntExpr (litType : HLSLBaseType) (value : Int) (exprType : HLSLType)
  | literalBoolExpr (value : Bool) (exprType : HLSLType)
  | unaryExpr (op : HLSLUnaryOp) (operand : Option Expr) (exprType : HLSLType)
  | binaryExpr (op : HLSLBinaryOp) (expr1 expr2 : Option Expr) (exprType : HLSLType)
  | conditionalExpr (cond trueExpr falseExpr : Option Expr) (exprType : HLSLType)
  | memberAccessExpr (object : Option Expr) (field : String) (exprType : HLSLType)
  | arrayAccessExpr (arr index : Option Expr) (exprType : HLSLType)
  | functionCallExpr (func : Func) (args : List Expr) (exprType : HLSLType)

/-- The `expressionType` header field of an expression node. -/
def Expr.exprType : Expr → HLSLType
  | .identifierExpr _ _ t => t
  | .constructorExpr _ _ t => t
  | .castingExpr _ _ t => t
  | .literalFloatExpr _ _ t => t
  | .literalIntExpr _ _ t => t
  | .literalBoolExpr _ t => t
  | .unaryExpr _ _ t => t
  | .binaryExpr _ _ _ t => t
  | .conditionalExpr _ _ _ t => t
  | .memberAccessExpr _ _ t => t
  | .arrayAccessExpr _ _ t => t
  | .functionCallExpr _ _ t => t

/-- `HLSLDeclaration` from HLSLTree.h (`assignment` is the initializer
chain: empty for `NULL`, several entries for an array initializer list). -/
structure Declaration where
  name : String
  type : HLSLType
  registerName : Option String := none
  assignment : List Expr := []

/-- `HLSLArgument` from HLSLTree.h. -/
structure Argument where
  name : String
  modifier : HLSLArgumentModifier := .NoModifier
  type : HLSLType
  semantic : Option String := none
  deriving DecidableEq, Repr

/-- The statement nodes of HLSLTree.h; `nextStatement` chains become
lists.  An `if` with no `else` carries `none` (the emitter distinguishes a
null `elseStatement` from an empty block). -/
inductive Stmt where
  | declaration (d : Declaration)
  | structDecl (s : HLSLStruct)
  | buffer (name : String) (registerName : Option String)
      (fields : List (String × HLSLType))
  | functionDecl (name : String) (returnType : HLSLType)
      (semantic : Option String) (args : List Argument) (body : List Stmt)
  | expressionStatement (e : Option Expr)
  | returnStatement (e : Option Expr)
  | discardStatement
  | breakStatement
  | continueStatement
  | ifStatement (cond : Option Expr) (thenBody : List Stmt)
      (elseBody : Option (List Stmt))
  | forStatement (initialization : Option Declaration) (cond : Option Expr)
      (increment : Option Expr) (body : List Stmt)

/-! ### The GLSL emitter (GLSLGenerator.cpp) -/

/-- `GLSLGenerator::Target`. -/
inductive Target where
  | VertexShader | FragmentShader
  deriving DecidableEq, Repr

/-- The generator state fixed at the start of `Generate`: the target, the
entry name, the attribute prefixes, the unique helper-function names
chosen by `ChooseUniqueName`, and the reserved-word replacements
(`s_reservedWord[i] ↦ m_reservedWord[i]`). -/
structure GLSLEnv where
  target : Target
  entryName : String
  inAttribPrefix : String
  outAttribPrefix : String
  matrixRowFunction : String
  clipFunction : String
  tex2DlodFunction : String
  texCUBEbiasFunction : String
  scalarSwizzle2Function : String
  scalarSwizzle3Function : String
  scalarSwizzle4Function : String
  sinCosFunction : String
  reservedWordRenames : List (String × String)
  deriving DecidableEq, Repr

/-- `GLSLGenerator::GetSafeIdentifierName`: replace a GLSL reserved word by
its uniquely chosen rename. -/
def getSafeIdentifierName (env : GLSLEnv) (name : String) : String :=
  match env.reservedWordRenames.find? (fun p => p.1 == name) with
  | some p => p.2
  | none => name

/-- `GLSLGenerator::OutputIdentifier`: remap the renamed intrinsics, else
sanitize reserved words. -/
def outputIdentifier (env : GLSLEnv) (name : String) : String :=
  if name == "tex2D" then "texture"
  else if name == "tex2Dproj" then "texture2DProj"
  else if name == "texCUBE" then "texture"
  else if name == "clip" then env.clipFunction
  else if name == "tex2Dlod" then env.tex2DlodFunction
  else if name == "texCUBEbias" then env.texCUBEbiasFunction
  else if name == "atan2" then "atan"
  else if name == "sincos" then env.sinCosFunction
  else if name == "fmod" then "mod"
  else if name == "lerp" then "mix"
  else getSafeIdentifierName env name

/-- The GLSL `GetTypeName` switch of GLSLGenerator.cpp (the `ASSERT(0)`
default returns `"?"`). -/
def getTypeNameGLSL (type : HLSLType) : String :=
  match type.baseType with
  | .Void => "void"
  | .Float => "float" | .Float2 => "vec2" | .Float3 => "vec3" | .Float4 => "vec4"
  | .Float3x3 => "mat3" | .Float4x4 => "mat4"
  | .Half => "float" | .Half2 => "vec2" | .Half3 => "vec3" | .Half4 => "vec4"
  | .Half3x3 => "mat3" | .Half4x4 => "mat4"
  | .Bool => "bool"
  | .Int => "int" | .Int2 => "ivec2" | .Int3 => "ivec3" | .Int4 => "ivec4"
  | .Uint => "uint" | .Uint2 => "uvec2" | .Uint3 => "uvec3" | .Uint4 => "uvec4"
  | .Texture => "texture"
  | .Sampler2D => "sampler2D"
  | .SamplerCube => "samplerCube"
  | .UserDefined => type.typeName
  | .Unknown => "?"

/-- `GetCanImplicitCast` from GLSLGenerator.cpp. -/
def getCanImplicitCast (srcType dstType : HLSLType) : Bool :=
  srcType.baseType == dstType.baseType

/-- ASCII lower-casing of one character (`tolower`). -/
def charToLowerAscii (c : Char) : Char :=
  if 'A' ≤ c ∧ c ≤ 'Z' then Char.ofNat (c.toNat + 32) else c

/-- `String_EqualNoCase` (Engine helper): ASCII case-insensitive string
equality. -/
def strEqualNoCase (a b : String) : Bool :=
  a.toList.map charToLowerAscii == b.toList.map charToLowerAscii

/-- The `_builtInSemantics` table of GLSLGenerator.cpp. -/
def builtInSemantics : List (String × String) :=
  [("SV_POSITION", "gl_Position"), ("DEPTH", "gl_FragDepth")]

/-- `GetBuiltInSemantic` from GLSLGenerator.cpp. -/
def getBuiltInSemantic (semantic : String) : Option String :=
  (builtInSemantics.find? (fun p => strEqualNoCase semantic p.1)).map (fun p => p.2)

/-- `static const HLSLType kBoolType(HLSLBaseType_Bool)`. -/
def kBoolType : HLSLType := plainType .Bool

/-- An emission outcome that aborts the modelled walk: a null-pointer
dereference, a diagnostic through `GLSLGenerator::Error` (the C++ sets a
sticky flag and returns from the current call; no verified claim reaches
such a path after the first error), or fuel exhaustion of the model's
bounded recursion (never hit at the concrete inputs used). -/
inductive GenError where
  | nullDeref
  | errorCall (msg : String)
  | outOfFuel
  deriving DecidableEq, Repr

/-- `OutputDeclaration(type, name)` from GLSLGenerator.cpp; for an array
type the size expression is printed, rendered here by its arena
reference (no verified claim touches array emission). -/
def outputDeclarationType (env : GLSLEnv) (type : HLSLType) (name : String) : String :=
  if !type.array then
    getTypeNameGLSL type ++ " " ++ getSafeIdentifierName env name
  else
    getTypeNameGLSL type ++ " " ++ getSafeIdentifierName env name ++ "[" ++
      (match type.arraySize with
       | some sizeRef => toString sizeRef
       | none => "") ++ "]"

/-- The `[%d][%d]` loop of the matrix "swizzle" branch of
`OutputExpression`: each `_mRC`/`_RC` pair is emitted with the indices
transposed (`[C][R]`, GLSL matrices being column-major-indexed); a
malformed accessor hits `ASSERT(0)` and breaks, keeping the output so
far. -/
def matrixSwizzleText : List Char → String
  | '_' :: 'm' :: d1 :: d2 :: rest =>
      if d1.isDigit ∧ d2.isDigit then
        "[" ++ toString ((d2.toNat : Int) - ('0'.toNat : Int)) ++ "][" ++
          toString ((d1.toNat : Int) - ('0'.toNat : Int)) ++ "]" ++ matrixSwizzleText rest
      else ""
  | '_' :: 'm' :: _ => ""
  | '_' :: d1 :: d2 :: rest =>
      if d1.isDigit ∧ d2.isDigit then
        "[" ++ toString ((d2.toNat : Int) - ('1'.toNat : Int)) ++ "][" ++
          toString ((d1.toNat : Int) - ('1'.toNat : Int)) ++ "]" ++ matrixSwizzleText rest
      else ""
  | '_' :: _ => ""
  | _ => ""

mutual

/-- `GLSLGenerator::OutputExpression`: emit one expression (`none` models a
`NULL` expression pointer, which the C++ dereferences at once), wrapping it
in a `<dstType>(…)` conversion when the destination's base type differs
(and the expression is not itself a cast).  `fuel` bounds the recursion of
the model. -/
def outputExpression (env : GLSLEnv) :
    Nat → Option Expr → Option HLSLType → Except GenError String
  | 0, _, _ => throw .outOfFuel
  | _ + 1, none, _ => throw .nullDeref
  | fuel + 1, some e, dstType => do
    let cast :=
      match dstType with
      | some d => !(getCanImplicitCast e.exprType d)
      | none => false
    let cast :=
      match e with
      | .castingExpr _ _ _ => false
      | _ => cast
    let body ←
      match e with
      | .identifierExpr name _ _ => pure (outputIdentifier env name)
      | .constructorExpr ctorType args _ => do
          let argText ← outputExpressionList env fuel args []
          pure (getTypeNameGLSL ctorType ++ "(" ++ argText ++ ")")
      | .castingExpr castType operand _ => do
          let inner ← outputExpression env fuel operand none
          pure (outputDeclarationType env castType "" ++ "(" ++ inner ++ ")")
      | .literalFloatExpr _ text _ => pure text
      | .literalIntExpr _ value _ => pure (toString value)
      | .literalBoolExpr value _ => pure (if value then "true" else "false")
      | .unaryExpr op operand exprType => do
          let opText :=
            match op with
            | .Negative => "-"
            | .Positive => "+"
            | .Not => "!"
            | .PreIncrement => "++"
            | .PreDecrement => "++"
            | .PostIncrement => "++"
            | .PostDecrement => "--"
          let pre :=
            match op with
            | .PostIncrement => false
            | .PostDecrement => false
            | _ => true
          let innerDst : Option HLSLType :=
            match op with
            | .Not => some exprType
            | _ => none
          let inner ← outputExpression env fuel operand innerDst
          pure (if pre then "(" ++ opText ++ inner ++ ")"
                else "(" ++ inner ++ opText ++ ")")
      | .binaryExpr op expr1 expr2 exprType => do
          let opText :=
            match op with
            | .Add => " + " | .Sub => " - " | .Mul => " * " | .Div => " / "
            | .Less => " < " | .Greater => " > "
            | .LessEqual => " <= " | .GreaterEqual => " >= "
            | .Equal => " == " | .NotEqual => " != "
            | .Assign => " = " | .AddAssign => " += " | .SubAssign => " -= "
            | .MulAssign => " *= " | .DivAssign => " /= "
            | .And => " && " | .Or => " || "
          let dstType1 : Option HLSLType :=
            match op with
            | .Add | .Sub | .And | .Or => some exprType
            | _ => none
          let dstType2 : Option HLSLType :=
            match op with
            | .Add | .Sub | .And | .Or => some exprType
            | .Assign | .AddAssign | .SubAssign | .MulAssign | .DivAssign =>
                some exprType
            | _ => none
          let t1 ← outputExpression env fuel expr1 dstType1
          let t2 ← outputExpression env fuel expr2 dstType2
          pure ("(" ++ t1 ++ opText ++ t2 ++ ")")
      | .conditionalExpr cond trueExpr falseExpr _ => do
          let c ← outputExpression env fuel cond (some kBoolType)
          let t ← outputExpression env fuel trueExpr none
          let f ← outputExpression env fuel falseExpr none
          pure ("((" ++ c ++ ")?(" ++ t ++ "):(" ++ f ++ "))")
      | .memberAccessExpr object field _ => do
          match object with
          | none => throw .nullDeref
          | some obj =>
              if obj.exprType.baseType = .Half ∨ obj.exprType.baseType = .Float ∨
                 obj.exprType.baseType = .Int ∨ obj.exprType.baseType = .Uint then do
                let fn :=
                  if field.length = 2 then env.scalarSwizzle2Function
                  else if field.length = 3 then env.scalarSwizzle3Function
                  else if field.length = 4 then env.scalarSwizzle4Function
                  else ""
                let inner ← outputExpression env fuel (some obj) none
                pure (fn ++ "(" ++ inner ++ ")")
              else do
                let inner ← outputExpression env fuel (some obj) none
                if obj.exprType.baseType = .Float3x3 ∨
                   obj.exprType.baseType = .Float4x4 then
                  pure ("(" ++ inner ++ ")" ++ matrixSwizzleText field.toList)
                else
                  pure ("(" ++ inner ++ ")." ++ field)
      | .arrayAccessExpr arr index _ => do
          match arr with
          | none => throw .nullDeref
          | some a =>
              if !a.exprType.array ∧ (a.exprType.baseType = .Float3x3 ∨
                  a.exprType.baseType = .Float4x4) then do
                let arrText ← outputExpression env fuel (some a) none
                let idxText ← outputExpression env fuel index none
                pure (env.matrixRowFunction ++ "(" ++ arrText ++ "," ++ idxText ++ ")")
              else do
                let arrText ← outputExpression env fuel (some a) none
                let idxText ← outputExpression env fuel index none
                pure (arrText ++ "[" ++ idxText ++ "]")
      | .functionCallExpr func args _ => do
          if func.name == "mul" then
            if args.length = 2 then
              match args, func.params with
              | a0 :: a1 :: _, p1 :: p2 :: _ => do
                  let t0 ← outputExpression env fuel (some a0) (some p1)
                  let t1 ← outputExpression env fuel (some a1) (some p2)
                  pure ("((" ++ t0 ++ ") * (" ++ t1 ++ "))")
              | _, _ => throw .nullDeref
            else throw (.errorCall "mul expects 2 arguments")
          else if func.name == "saturate" then
            match args with
            | [a0] => do
                let t0 ← outputExpression env fuel (some a0) none
                pure ("clamp(" ++ t0 ++ ", 0.0, 1.0)")
            | _ => throw (.errorCall "saturate expects 1 argument")
          else do
            let argText ← outputExpressionList env fuel args func.params
            pure (outputIdentifier env func.name ++ "(" ++ argText ++ ")")
    if cast then
      pure (outputDeclarationType env (dstType.getD (plainType .Unknown)) "" ++
        "(" ++ body ++ ")")
    else
      pure body

/-- `GLSLGenerator::OutputExpressionList`: the expressions separated by
`", "`, each emitted against the corresponding parameter type while
parameters remain. -/
def outputExpressionList (env : GLSLEnv) :
    Nat → List Expr → List HLSLType → Except GenError String
  | 0, _, _ => throw .outOfFuel
  | _ + 1, [], _ => pure ""
  | fuel + 1, e :: es, argTypes => do
      let t ← outputExpression env fuel (some e) argTypes.head?
      let rest ← outputExpressionList env fuel es argTypes.tail
      pure (t ++ (if es.isEmpty then "" else ", ") ++ rest)

end

/-- `GLSLGenerator::OutputArguments`. -/
def outputArguments (env : GLSLEnv) (args : List Argument) : String :=
  match args with
  | [] => ""
  | a :: rest =>
      (match a.modifier with
       | .In => "in "
       | .Inout => "inout "
       | _ => "") ++
      outputDeclarationType env a.type a.name ++
      (if rest.isEmpty then "" else ", ") ++ outputArguments env rest

/-- `OutputDeclaration(HLSLDeclaration*)` from GLSLGenerator.cpp:
dereferences the declaration, then emits the typed name and the optional
initializer (array initializers as `T[]( … )`). -/
def outputDeclarationStmt (env : GLSLEnv) (fuel : Nat) :
    Option Declaration → Except GenError String
  | none => throw .nullDeref
  | some d => do
      let base := outputDeclarationType env d.type (getSafeIdentifierName env d.name)
      match d.assignment with
      | [] => pure base
      | a :: rest =>
          if d.type.array then do
            let t ← outputExpressionList env fuel (a :: rest) []
            pure (base ++ " = " ++ getTypeNameGLSL d.type ++ "[]( " ++ t ++ " )")
          else do
            let t ← outputExpression env fuel (some a) (some d.type)
            pure (base ++ " = " ++ t)

/-- `GLSLGenerator::OutputStatements`: the emitted lines (payload only, the
`#line` markers and indentation of the `CodeWriter` are not modelled), for
the statement chain at the given indent level; `returnType` is the
enclosing function's return type, used to cast return expressions. -/
def outputStatements (env : GLSLEnv) :
    Nat → Nat → List Stmt → Option HLSLType → Except GenError (List String)
  | 0, _, _, _ => throw .outOfFuel
  | _ + 1, _, [], _ => pure []
  | fuel + 1, indent, statement :: rest, returnType => do
    let lines ←
      match statement with
      | .declaration d =>
          if d.type.baseType == .Texture then pure []
          else do
            let t ← outputDeclarationStmt env fuel (some d)
            pure [(if indent = 0 then "uniform " else "") ++ t ++ ";"]
      | .structDecl st =>
          pure (["struct " ++ st.name ++ " \x7b"] ++
            st.fields.map (fun f => outputDeclarationType env f.type f.name ++ ";") ++
            ["\x7d;"])
      | .buffer name _ fields =>
          if fields.isEmpty then pure []
          else
            pure (["layout (std140) uniform " ++ name ++ " \x7b"] ++
              fields.map (fun f => outputDeclarationType env f.2 f.1 ++ ";") ++
              ["\x7d;"])
      | .functionDecl name funcReturnType _ args body => do
          let bodyLines ← outputStatements env fuel (indent + 1) body (some funcReturnType)
          pure ([getTypeNameGLSL funcReturnType ++ " " ++
            getSafeIdentifierName env name ++ "(" ++ outputArguments env args ++
            ") \x7b"] ++ bodyLines ++ ["\x7d"])
      | .expressionStatement e => do
          let t ← outputExpression env fuel e none
          pure [t ++ ";"]
      | .returnStatement e =>
          match e with
          | some ex => do
              let t ← outputExpression env fuel (some ex) returnType
              pure ["return " ++ t ++ ";"]
          | none => pure ["return;"]
      | .discardStatement =>
          if env.target = .FragmentShader then pure ["discard;"] else pure []
      | .breakStatement => pure ["break;"]
      | .continueStatement => pure ["continue;"]
      | .ifStatement cond thenBody elseBody => do
          let c ← outputExpression env fuel cond (some kBoolType)
          let thenLines ← outputStatements env fuel (indent + 1) thenBody returnType
          let elseLines ←
            match elseBody with
            | none => pure []
            | some elseStmts => do
                let b ← outputStatements env fuel (indent + 1) elseStmts returnType
                pure (["else \x7b"] ++ b ++ ["\x7d"])
          pure (["if (" ++ c ++ ") \x7b"] ++ thenLines ++ ["\x7d"] ++ elseLines)
      | .forStatement initialization cond increment body => do
          let initText ← outputDeclarationStmt env fuel initialization
          let condText ← outputExpression env fuel cond (some kBoolType)
          let incText ← outputExpression env fuel increment none
          let bodyLines ← outputStatements env fuel (indent + 1) body returnType
          pure (["for (" ++ initText ++ "; " ++ condText ++ "; " ++ incText ++
            ") \x7b"] ++ bodyLines ++ ["\x7d"])
    let restLines ← outputStatements env fuel indent rest returnType
    pure (lines ++ restLines)

/-- `GLSLGenerator::OutputSetOutAttribute`: the lines written to copy one
result value into an out attribute or built-in, and whether
`m_outputPosition` was set. -/
def outputSetOutAttribute (outAttribPrefix semantic resultName : String) :
    List String × Bool :=
  match getBuiltInSemantic semantic with
  | some builtInSemantic =>
      if builtInSemantic == "gl_Position" then
        (["vec4 temp = " ++ resultName ++ ";",
          builtInSemantic ++ " = temp * vec4(1,-1,2,1) - vec4(0,0,temp.w,0);"], true)
      else if builtInSemantic == "gl_FragDepth" then
        ([builtInSemantic ++ " = clamp(float(" ++ resultName ++ "), 0.0, 1.0);"],
          false)
      else
        ([builtInSemantic ++ " = " ++ resultName ++ ";"], false)
  | none =>
      ([outAttribPrefix ++ semantic ++ " = " ++ resultName ++ ";"], false)

/-- The final check of `GLSLGenerator::Generate` (lines 253–259): with no
earlier error, a vertex-shader target that never wrote `gl_Position`
reports "Vertex shader must output a position" and makes `Generate`
return false; otherwise `Generate` returns true. -/
def generateFinalCheck (target : Target) (outputPosition : Bool) :
    Bool × Option String :=
  if target = .VertexShader ∧ !outputPosition then
    (false, some "Vertex shader must output a position")
  else
    (true, none)

/-! ### The command-line driver (Main.cpp) -/

/-- The argument loop of `main`: `-h`/`--help` prints usage and exits 0,
`-fs`/`-vs` select the target, the first two free arguments become file
and entry name, a third makes `main` exit 1.  The first component is the
early exit code when the loop returns. -/
def mainArgsLoop :
    List String → Option String → Option String → Target →
      Option Nat × Option String × Option String × Target
  | [], fileName, entryName, target => (none, fileName, entryName, target)
  | arg :: rest, fileName, entryName, target =>
      if arg == "-h" || arg == "--help" then (some 0, fileName, entryName, target)
      else if arg == "-fs" then mainArgsLoop rest fileName entryName .FragmentShader
      else if arg == "-vs" then mainArgsLoop rest fileName entryName .VertexShader
      else if fileName.isNone then mainArgsLoop rest (some arg) entryName target
      else if entryName.isNone then mainArgsLoop rest fileName (some arg) target
      else (some 1, fileName, entryName, target)

/-- The exit code of `main` (Main.cpp): 1 for argument errors and for a
parse failure; otherwise 0 — `generator.Generate(...)`'s boolean result is
not consulted (line 100), so `generateOk` does not influence the exit
code. -/
def mainExitCode (argv : List String) (parseOk : Bool) (generateOk : Bool) : Nat :=
  match mainArgsLoop argv none none .FragmentShader with
  | (some code, _, _, _) => code
  | (none, fileName, entryName, _) =>
      if fileName.isNone ∨ entryName.isNone then 1
      else if !parseOk then 1
      else 0

/-- A generator environment as `Generate` sets it up for a `-vs` run on a
source with no colliding identifiers (each unique name is its base plus
"0"). -/
def sampleEnv : GLSLEnv :=
  { target := .VertexShader
    entryName := "main"
    inAttribPrefix := ""
    outAttribPrefix := "frag_"
    matrixRowFunction := "matrix_row0"
    clipFunction := "clip0"
    tex2DlodFunction := "tex2Dlod0"
    texCUBEbiasFunction := "texCUBEbias0"
    scalarSwizzle2Function := "m_scalar_swizzle20"
    scalarSwizzle3Function := "m_scalar_swizzle30"
    scalarSwizzle4Function := "m_scalar_swizzle40"
    sinCosFunction := "sincos0"
    reservedWordRenames :=
      [("output", "output0"), ("input", "input0"), ("mod", "mod0"), ("mix", "mix0")] }

/-- C1: argument errors (missing or extra positional arguments) and parse
failures exit 1, but `main` never consults `Generate`'s boolean result:
for a `-vs` invocation whose entry function outputs no `SV_POSITION`
(e.g. only `TEXCOORD0`), `Generate` reports "Vertex shader must output a
position" and returns false, yet the process still exits 0 and prints
the output — contradicting "exit 1 on any error". -/
theorem claim_C1_generation_error_exit_code :
    mainExitCode ["-vs", "shader.hlsl", "main"] true false = 0
    ∧ (outputSetOutAttribute "frag_" "TEXCOORD0" "result").2 = false
    ∧ generateFinalCheck .VertexShader
        (outputSetOutAttribute "frag_" "TEXCOORD0" "result").2
        = (false, some "Vertex shader must output a position")
    ∧ mainExitCode ["-vs", "shader.hlsl"] true true = 1
    ∧ mainExitCode ["-vs", "shader.hlsl", "main", "extra"] true true = 1
    ∧ mainExitCode ["-vs", "shader.hlsl", "main"] false true = 1 :=
  ⟨rfl, rfl, rfl, rfl, rfl, rfl⟩

/-- C6: whenever the distributed result's semantic maps to `gl_Position`
(`SV_POSITION`, case-insensitively), `OutputSetOutAttribute` emits exactly
the temp assignment and the correction line
`gl_Position = temp * vec4(1,-1,2,1) - vec4(0,0,temp.w,0);`, and records
that a position was output. -/
theorem claim_C6_position_correction :
    (∀ outAttribPrefix semantic resultName : String,
        getBuiltInSemantic semantic = some "gl_Position" →
        outputSetOutAttribute outAttribPrefix semantic resultName =
          (["vec4 temp = " ++ resultName ++ ";",
            "gl_Position = temp * vec4(1,-1,2,1) - vec4(0,0,temp.w,0);"], true))
    ∧ outputSetOutAttribute "frag_" "SV_POSITION" "result" =
        (["vec4 temp = result;",
          "gl_Position = temp * vec4(1,-1,2,1) - vec4(0,0,temp.w,0);"], true) := by
  constructor
  · intro outAttribPrefix semantic resultName h
    rw [outputSetOutAttribute, h]
    rfl
  · rfl

/-- C8: the emitter prints `++`, not `--`, for a pre-decrement unary
expression: `--x` is emitted as `(++x)` (the `HLSLUnaryOp_PreDecrement`
case of `OutputExpression` sets `op = "++"`). -/
theorem claim_C8_predecrement_emits_plusplus :
    outputExpression sampleEnv 10
        (some (.unaryExpr .PreDecrement
          (some (.identifierExpr "x" false (plainType .Float)))
          (plainType .Float)))
        none
      = .ok "(++x)" := rfl

/-- C10: a `discard;` statement is silently dropped when the target is a
vertex shader — no line and no diagnostic — and writes a `discard;` line
exactly when the target is a fragment shader. -/
theorem claim_C10_discard_only_in_fragment :
    ∀ (env : GLSLEnv) (indent : Nat) (returnType : Option HLSLType),
      outputStatements { env with target := .VertexShader } 10 indent
          [.discardStatement] returnType = .ok []
      ∧ outputStatements { env with target := .FragmentShader } 10 indent
          [.discardStatement] returnType = .ok ["discard;"] :=
  fun _ _ _ => ⟨rfl, rfl⟩

/-! ### The recursive-descent parser (HLSLParser.cpp), statement level -/

/-- The token stream delivered by the (external) tokenizer: single-character
tokens by their character, keywords, multi-character operators, literals
(the float literal carries its formatted text, see `Expr`), identifiers
and the end-of-stream sentinel. -/
inductive Token where
  | lparen | rparen | lbrace | rbrace | lbracket | rbracket
  | semicolon | comma | colon | dot | question
  | plus | minus | star | slash | less | greater | equal | bang
  | identifier (name : String)
  | intLiteral (value : Int)
  | floatLiteral (text : String)
  | kwFloat | kwFloat2 | kwFloat3 | kwFloat4 | kwFloat3x3 | kwFloat4x4
  | kwHalf | kwHalf2 | kwHalf3 | kwHalf4 | kwHalf3x3 | kwHalf4x4
  | kwBool | kwInt | kwInt2 | kwInt3 | kwInt4
  | kwUint | kwUint2 | kwUint3 | kwUint4
  | kwTexture | kwSampler2D | kwSamplerCube
  | kwIf | kwElse | kwFor | kwReturn | kwDiscard | kwBreak | kwContinue
  | kwConst | kwStruct | kwCBuffer | kwTBuffer | kwRegister | kwPackOffset
  | kwTrue | kwFalse | kwVoid | kwIn | kwInOut | kwUniform
  | opEqualEqual | opNotEqual | opLessEqual | opGreaterEqual
  | opAndAnd | opBarBar | opPlusPlus | opMinusMinus
  | opPlusEqual | opMinusEqual | opTimesEqual | opDivideEqual
  | endOfStream
  deriving Repr, BEq

/-- One entry of `m_variables`: the scope stack; `name = none` is the
sentinel entry `BeginScope` pushes. -/
structure ScopeVar where
  name : Option String
  type : HLSLType
  deriving DecidableEq, Repr

/-- The parser's mutable state: the remaining token stream (most recent
first — the C++ array grows at the back, this list at the front), the
scope stack `m_variables` (top first), the user functions and user types collected so
far, `m_numGlobals`, and a counter supplying fresh arena references for
array-size expressions. -/
structure ParserState where
  tokens : List Token
  varStack : List ScopeVar := []
  functions : List Func := []
  userTypes : List HLSLStruct := []
  numGlobals : Nat := 0
  nextNodeId : Nat := 0
  deriving Repr

/-- `m_tokenizer.GetToken()`: the tokenizer yields the end-of-stream
sentinel past the last token. -/
def curToken (s : ParserState) : Token := s.tokens.headD .endOfStream

/-- `m_tokenizer.Next()`. -/
def nextTokenState (s : ParserState) : ParserState := { s with tokens := s.tokens.tail }

/-- `HLSLParser::Accept(int)` (the C++ compares token codes). -/
def accept (t : Token) (s : ParserState) : Bool × ParserState :=
  if curToken s == t then (true, nextTokenState s) else (false, s)

/-- `HLSLParser::Expect`: like `accept`, after printing a syntax-error
diagnostic on failure (diagnostics go to the log and are not modelled). -/
def expect (t : Token) (s : ParserState) : Bool × ParserState := accept t s

/-- `HLSLParser::AcceptIdentifier` (string interning is not modelled;
strings compare by value, as interned pointers do). -/
def acceptIdentifier (s : ParserState) : Option String × ParserState :=
  match curToken s with
  | .identifier name => (some name, nextTokenState s)
  | _ => (none, s)

/-- `HLSLParser::ExpectIdentifier` (the diagnostic is not modelled). -/
def expectIdentifier (s : ParserState) : Option String × ParserState :=
  acceptIdentifier s

/-- `HLSLParser::AcceptFloat`. -/
def acceptFloat (s : ParserState) : Option String × ParserState :=
  match curToken s with
  | .floatLiteral text => (some text, nextTokenState s)
  | _ => (none, s)

/-- `HLSLParser::AcceptInt`. -/
def acceptInt (s : ParserState) : Option Int × ParserState :=
  match curToken s with
  | .intLiteral value => (some value, nextTokenState s)
  | _ => (none, s)

/-- `HLSLParser::FindUserDefinedType`. -/
def findUserDefinedType (s : ParserState) (name : String) : Option HLSLStruct :=
  s.userTypes.find? (fun st => st.name == name)

/-- `HLSLParser::AcceptType`: the type-keyword switch, `void` when allowed,
then user-defined type names.  `hasConstantOut` models whether the
`bool* constant` out-pointer is non-null — only then is a leading `const`
consumed.  Returns (accepted, baseType, typeName, constant). -/
def acceptType (allowVoid : Bool) (hasConstantOut : Bool) (s : ParserState) :
    (Bool × HLSLBaseType × String × Bool) × ParserState :=
  let (isConst, s) :=
    if hasConstantOut then accept .kwConst s else (false, s)
  let fail := ((false, HLSLBaseType.Void, "", isConst), s)
  match curToken s with
  | .kwFloat => ((true, .Float, "", isConst), nextTokenState s)
  | .kwFloat2 => ((true, .Float2, "", isConst), nextTokenState s)
  | .kwFloat3 => ((true, .Float3, "", isConst), nextTokenState s)
  | .kwFloat4 => ((true, .Float4, "", isConst), nextTokenState s)
  | .kwFloat3x3 => ((true, .Float3x3, "", isConst), nextTokenState s)
  | .kwFloat4x4 => ((true, .Float4x4, "", isConst), nextTokenState s)
  | .kwHalf => ((true, .Half, "", isConst), nextTokenState s)
  | .kwHalf2 => ((true, .Half2, "", isConst), nextTokenState s)
  | .kwHalf3 => ((true, .Half3, "", isConst), nextTokenState s)
  | .kwHalf4 => ((true, .Half4, "", isConst), nextTokenState s)
  | .kwHalf3x3 => ((true, .Half3x3, "", isConst), nextTokenState s)
  | .kwHalf4x4 => ((true, .Half4x4, "", isConst), nextTokenState s)
  | .kwBool => ((true, .Bool, "", isConst), nextTokenState s)
  | .kwInt => ((true, .Int, "", isConst), nextTokenState s)
  | .kwInt2 => ((true, .Int2, "", isConst), nextTokenState s)
  | .kwInt3 => ((true, .Int3, "", isConst), nextTokenState s)
  | .kwInt4 => ((true, .Int4, "", isConst), nextTokenState s)
  | .kwUint => ((true, .Uint, "", isConst), nextTokenState s)
  | .kwUint2 => ((true, .Uint2, "", isConst), nextTokenState s)
  | .kwUint3 => ((true, .Uint3, "", isConst), nextTokenState s)
  | .kwUint4 => ((true, .Uint4, "", isConst), nextTokenState s)
  | .kwTexture => ((true, .Texture, "", isConst), nextTokenState s)
  | .kwSampler2D => ((true, .Sampler2D, "", isConst), nextTokenState s)
  | .kwSamplerCube => ((true, .SamplerCube, "", isConst), nextTokenState s)
  | .kwVoid =>
      if allowVoid then ((true, .Void, "", isConst), nextTokenState s) else fail
  | .identifier name =>
      if (findUserDefinedType s name).isSome then
        ((true, .UserDefined, name, isConst), nextTokenState s)
      else fail
  | _ => fail

/-- `HLSLParser::BeginScope`: push the null-name sentinel. -/
def beginScope (s : ParserState) : ParserState :=
  { s with varStack := ⟨none, plainType .Unknown⟩ :: s.varStack }

/-- `HLSLParser::EndScope`: pop entries down to and including the topmost
sentinel. -/
def endScope (s : ParserState) : ParserState :=
  { s with varStack := (s.varStack.dropWhile (fun v => v.name.isSome)).tail }

/-- `HLSLParser::DeclareVariable`. -/
def declareVariable (name : String) (type : HLSLType) (s : ParserState) : ParserState :=
  let numGlobals :=
    if s.varStack.length = s.numGlobals then s.numGlobals + 1 else s.numGlobals
  { s with varStack := ⟨some name, type⟩ :: s.varStack, numGlobals := numGlobals }

/-- `HLSLParser::FindVariable`: scan from the top of the stack down to the
first entry with the name; the second component is the `global` flag,
true when the entry's bottom-up index is below `m_numGlobals`. -/
def findVariable (s : ParserState) (name : String) : Option (HLSLType × Bool) :=
  let rec go : List ScopeVar → Nat → Option (HLSLType × Bool)
    | [], _ => none
    | v :: rest, topIndex =>
        if v.name = some name then
          some (v.type, decide (s.varStack.length - 1 - topIndex < s.numGlobals))
        else go rest (topIndex + 1)
  go s.varStack 0

/-- `HLSLParser::GetIsFunction`: the name is a user function or an
intrinsic. -/
def getIsFunction (s : ParserState) (name : String) : Bool :=
  s.functions.any (fun f => f.name == name) ||
    intrinsicTable.any (fun f => f.name == name)

/-- `HLSLParser::CheckTypeCast`: convertible, or a diagnostic (not
modelled) and false. -/
def checkTypeCast (srcType dstType : HLSLType) : Bool :=
  getTypeCastRank srcType dstType != -1

/-- The `_binaryOpPriority` table (indexed by `HLSLBinaryOp`; the
assignment operators are never queried — `AcceptBinaryOperator` cannot
produce them, and the C++ asserts the index bound). -/
def binaryOpPriority : HLSLBinaryOp → Nat
  | .And => 2 | .Or => 1
  | .Add => 5 | .Sub => 5
  | .Mul => 6 | .Div => 6
  | .Less => 4 | .Greater => 4
  | .LessEqual => 4 | .GreaterEqual => 4
  | .Equal => 3 | .NotEqual => 3
  | _ => 0

/-- `const int _conditionalOpPriority = 1`. -/
def conditionalOpPriority : Nat := 1

/-- `HLSLParser::AcceptBinaryOperator`: map the token to a binary
operator, and consume it only when its priority exceeds the current
threshold. -/
def acceptBinaryOperator (priority : Nat) (s : ParserState) :
    Option HLSLBinaryOp × ParserState :=
  let op? : Option HLSLBinaryOp :=
    match curToken s with
    | .plus => some .Add
    | .minus => some .Sub
    | .star => some .Mul
    | .slash => some .Div
    | .less => some .Less
    | .greater => some .Greater
    | .opLessEqual => some .LessEqual
    | .opGreaterEqual => some .GreaterEqual
    | .opEqualEqual => some .Equal
    | .opNotEqual => some .NotEqual
    | .opAndAnd => some .And
    | .opBarBar => some .Or
    | _ => none
  match op? with
  | some op =>
      if binaryOpPriority op > priority then (some op, nextTokenState s)
      else (none, s)
  | none => (none, s)

/-- `HLSLParser::AcceptUnaryOperator`. -/
def acceptUnaryOperator (pre : Bool) (s : ParserState) :
    Option HLSLUnaryOp × ParserState :=
  let op? : Option HLSLUnaryOp :=
    match curToken s with
    | .opPlusPlus => some (if pre then .PreIncrement else .PostIncrement)
    | .opMinusMinus => some (if pre then .PreDecrement else .PostDecrement)
    | .minus => if pre then some .Negative else none
    | .plus => if pre then some .Positive else none
    | .bang => if pre then some .Not else none
    | _ => none
  match op? with
  | some op => (some op, nextTokenState s)
  | none => (none, s)

/-- `HLSLParser::AcceptAssign`. -/
def acceptAssign (s : ParserState) : Option HLSLBinaryOp × ParserState :=
  match curToken s with
  | .equal => (some .Assign, nextTokenState s)
  | .opPlusEqual => (some .AddAssign, nextTokenState s)
  | .opMinusEqual => (some .SubAssign, nextTokenState s)
  | .opTimesEqual => (some .MulAssign, nextTokenState s)
  | .opDivideEqual => (some .DivAssign, nextTokenState s)
  | _ => (none, s)

/-- The index `baseType - HLSLBaseType_FirstNumeric` of a numeric base
type into `_binaryOpTypeLookup`. -/
def numericIndex : HLSLBaseType → Nat
  | .Float => 0 | .Float2 => 1 | .Float3 => 2 | .Float4 => 3
  | .Float3x3 => 4 | .Float4x4 => 5
  | .Half => 6 | .Half2 => 7 | .Half3 => 8 | .Half4 => 9
  | .Half3x3 => 10 | .Half4x4 => 11
  | .Bool => 12
  | .Int => 13 | .Int2 => 14 | .Int3 => 15 | .Int4 => 16
  | .Uint => 17 | .Uint2 => 18 | .Uint3 => 19 | .Uint4 => 20
  | _ => 0

/-- The 21×21 `_binaryOpTypeLookup` table of HLSLParser.cpp, row by row. -/
def binaryOpTypeLookup : List (List HLSLBaseType) :=
  [[.Float, .Float2, .Float3, .Float4, .Float3x3, .Float4x4, .Float, .Float2,
    .Float3, .Float4, .Float3x3, .Float4x4, .Float, .Float, .Float2, .Float3,
    .Float4, .Float, .Float2, .Float3, .Float4],
   [.Float2, .Float2, .Float2, .Float2, .Unknown, .Unknown, .Float2, .Float2,
    .Float2, .Float2, .Unknown, .Unknown, .Float2, .Float2, .Float2, .Float2,
    .Float2, .Float2, .Float2, .Float2, .Float2],
   [.Float3, .Float2, .Float3, .Float3, .Unknown, .Unknown, .Float3, .Float2,
    .Float3, .Float3, .Unknown, .Unknown, .Float3, .Float3, .Float2, .Float3,
    .Float3, .Float3, .Float2, .Float3, .Float3],
   [.Float4, .Float2, .Float3, .Float4, .Unknown, .Unknown, .Float4, .Float2,
    .Float3, .Float4, .Unknown, .Unknown, .Float4, .Float4, .Float2, .Float3,
    .Float4, .Float4, .Float2, .Float3, .Float4],
   [.Float3x3, .Unknown, .Unknown, .Unknown, .Float3x3, .Float3x3, .Float3x3,
    .Unknown, .Unknown, .Unknown, .Float3x3, .Float3x3, .Float3x3, .Float3x3,
    .Unknown, .Unknown, .Unknown, .Float3x3, .Unknown, .Unknown, .Unknown],
   [.Float4x4, .Unknown, .Unknown, .Unknown, .Float3x3, .Float4x4, .Float4x4,
    .Unknown, .Unknown, .Unknown, .Float3x3, .Float4x4, .Float4x4, .Float4x4,
    .Unknown, .Unknown, .Unknown, .Float4x4, .Unknown, .Unknown, .Unknown],
   [.Float, .Float2, .Float3, .Float4, .Float3x3, .Float4x4, .Half, .Half2,
    .Half3, .Half4, .Half3x3, .Half4x4, .Half, .Half, .Half2, .Half3, .Half4,
    .Half, .Half2, .Half3, .Half4],
   [.Float2, .Float2, .Float2, .Float2, .Unknown, .Unknown, .Half2, .Half2,
    .Half2, .Half2, .Unknown, .Unknown, .Half2, .Half2, .Half2, .Half2, .Half2,
    .Half2, .Half2, .Half2, .Half2],
   [.Float3, .Float2, .Float3, .Float3, .Unknown, .Unknown, .Half3, .Half2,
    .Half3, .Half3, .Unknown, .Unknown, .Half3, .Half3, .Half2, .Half3, .Half3,
    .Half3, .Half2, .Half3, .Half3],
   [.Float4, .Float2, .Float3, .Float4, .Unknown, .Unknown, .Half4, .Half2,
    .Half3, .Half4, .Unknown, .Unknown, .Half4, .Half4, .Half2, .Half3, .Half4,
    .Half4, .Half2, .Half3, .Half4],
   [.Float3x3, .Unknown, .Unknown, .Unknown, .Float3x3, .Float3x3, .Half3x3,
    .Unknown, .Unknown, .Unknown, .Half3x3, .Half3x3, .Half3x3, .Half3x3,
    .Unknown, .Unknown, .Unknown, .Half3x3, .Unknown, .Unknown, .Unknown],
   [.Float4x4, .Unknown, .Unknown, .Unknown, .Float3x3, .Float4x4, .Half4x4,
    .Unknown, .Unknown, .Unknown, .Half3x3, .Half4x4, .Half4x4, .Half4x4,
    .Unknown, .Unknown, .Unknown, .Half4x4, .Unknown, .Unknown, .Unknown],
   [.Float, .Float2, .Float3, .Float4, .Float3x3, .Float4x4, .Half, .Half2,
    .Half3, .Half4, .Half3x3, .Half4x4, .Int, .Int, .Int2, .Int3, .Int4,
    .Uint, .Uint2, .Uint3, .Uint4],
   [.Float, .Float2, .Float3, .Float4, .Float3x3, .Float4x4, .Half, .Half2,
    .Half3, .Half4, .Half3x3, .Half4x4, .Int, .Int, .Int2, .Int3, .Int4,
    .Uint, .Uint2, .Uint3, .Uint4],
   [.Float2, .Float2, .Float2, .Float2, .Unknown, .Unknown, .Half2, .Half2,
    .Half2, .Half2, .Unknown, .Unknown, .Int2, .Int2, .Int2, .Int2, .Int2,
    .Uint2, .Uint2, .Uint2, .Uint2],
   [.Float3, .Float2, .Float3, .Float3, .Unknown, .Unknown, .Half3, .Half2,
    .Half3, .Half3, .Unknown, .Unknown, .Int3, .Int3, .Int2, .Int3, .Int3,
    .Uint3, .Uint2, .Uint3, .Uint3],
   [.Float4, .Float2, .Float3, .Float4, .Unknown, .Unknown, .Half4, .Half2,
    .Half3, .Half4, .Unknown, .Unknown, .Int4, .Int4, .Int2, .Int3, .Int4,
    .Uint4, .Uint2, .Uint3, .Uint4],
   [.Float, .Float2, .Float3, .Float4, .Float3x3, .Float4x4, .Half, .Half2,
    .Half3, .Half4, .Half3x3, .Half4x4, .Uint, .Uint, .Uint2, .Uint3, .Uint4,
    .Uint, .Uint2, .Uint3, .Uint4],
   [.Float2, .Float2, .Float2, .Float2, .Unknown, .Unknown, .Half2, .Half2,
    .Half2, .Half2, .Unknown, .Unknown, .Uint2, .Uint2, .Uint2, .Uint2, .Uint2,
    .Uint2, .Uint2, .Uint2, .Uint2],
   [.Float3, .Float2, .Float3, .Float3, .Unknown, .Unknown, .Half3, .Half2,
    .Half3, .Half3, .Unknown, .Unknown, .Uint3, .Uint3, .Uint2, .Uint3, .Uint3,
    .Uint3, .Uint2, .Uint3, .Uint3],
   [.Float4, .Float2, .Float3, .Float4, .Unknown, .Unknown, .Half4, .Half2,
    .Half3, .Half4, .Unknown, .Unknown, .Uint4, .Uint4, .Uint2, .Uint3, .Uint4,
    .Uint4, .Uint2, .Uint3, .Uint4]]

/-- `GetBinaryOpResultType` from HLSLParser.cpp: logical and relational
operators yield `bool`; the others look the result base type up in
`_binaryOpTypeLookup`; arrays and non-numeric operands, and `Unknown`
table entries, fail. -/
def getBinaryOpResultType (binaryOp : HLSLBinaryOp) (type1 type2 : HLSLType) :
    Option HLSLType :=
  if !isNumericBase type1.baseType || type1.array ||
     !isNumericBase type2.baseType || type2.array then
    none
  else
    let resultBase :=
      match binaryOp with
      | .And | .Or | .Less | .Greater | .LessEqual | .GreaterEqual
      | .Equal | .NotEqual => HLSLBaseType.Bool
      | _ =>
          ((binaryOpTypeLookup.getD (numericIndex type1.baseType) []).getD
            (numericIndex type2.baseType) .Unknown)
    if resultBase = .Unknown then none else some (plainType resultBase)

/-- An aborting outcome of the modelled parse: a null-pointer dereference
of the C++ code, or exhaustion of the model's recursion fuel (never hit at
the concrete inputs used). -/
inductive ParseCrash where
  | nullDeref
  | outOfFuel
  deriving DecidableEq, Repr

/-- Reading through an expression pointer: `none` is a C++ null
dereference. -/
def derefExpr : Option Expr → Except ParseCrash Expr
  | none => throw .nullDeref
  | some e => pure e

/-- The element-type switch of the array-access case of
`ParseTerminalExpression`. -/
def arrayElementBase : HLSLBaseType → Option HLSLBaseType
  | .Float2 | .Float3 | .Float4 => some .Float
  | .Float3x3 => some .Float3
  | .Float4x4 => some .Float4
  | .Half2 | .Half3 | .Half4 => some .Half
  | .Half3x3 => some .Half3
  | .Half4x4 => some .Half4
  | .Int2 | .Int3 | .Int4 => some .Int
  | .Uint2 | .Uint3 | .Uint4 => some .Uint
  | _ => none

mutual

/-- `HLSLParser::ParseExpression`: a binary expression, then the
right-associative assignment loop (each assignment checks that the
right-hand side converts to the left-hand type). -/
def parseExpression (fuel : Nat) (s : ParserState) :
    Except ParseCrash ((Bool × Option Expr) × ParserState) :=
  match fuel with
  | 0 => throw .outOfFuel
  | fuel + 1 => do
    let ((ok, e?), s) ← parseBinaryExpression fuel 0 s
    if !ok then return ((false, e?), s)
    else parseAssignChain fuel e? s

/-- The `while (AcceptAssign(assignOp))` loop of `ParseExpression`. -/
def parseAssignChain (fuel : Nat) (expression? : Option Expr) (s : ParserState) :
    Except ParseCrash ((Bool × Option Expr) × ParserState) :=
  match fuel with
  | 0 => throw .outOfFuel
  | fuel + 1 =>
    match acceptAssign s with
    | (none, s) => return ((true, expression?), s)
    | (some assignOp, s) => do
        let ((ok2, e2?), s) ← parseBinaryExpression fuel 0 s
        if !ok2 then return ((false, e2?), s)
        else do
          let expression ← derefExpr expression?
          let e2 ← derefExpr e2?
          let node := Expr.binaryExpr assignOp (some expression) (some e2)
            expression.exprType
          if !checkTypeCast e2.exprType expression.exprType then
            return ((false, expression?), s)
          else parseAssignChain fuel (some node) s

/-- `HLSLParser::ParseBinaryExpression`: a terminal expression, the
precedence-climbing loop, then the closing parenthesis owed by the
terminal when it opened a parenthesized constructor. -/
def parseBinaryExpression (fuel : Nat) (priority : Nat) (s : ParserState) :
    Except ParseCrash ((Bool × Option Expr) × ParserState) :=
  match fuel with
  | 0 => throw .outOfFuel
  | fuel + 1 => do
    let ((ok, e?, needsEndParen), s) ← parseTerminalExpression fuel s
    if !ok then return ((false, e?), s)
    else do
      let ((ok2, e2?), s) ← parseBinaryOpLoop fuel priority e? s
      if !ok2 then return ((false, e2?), s)
      else if needsEndParen then
        let (okP, s) := expect .rparen s
        return ((okP, e2?), s)
      else return ((true, e2?), s)

/-- The `while (1)` loop of `ParseBinaryExpression`: consume a binary
operator of higher priority or (at low threshold) a conditional `?:`, and
recurse; stop otherwise. -/
def parseBinaryOpLoop (fuel : Nat) (priority : Nat) (expression? : Option Expr)
    (s : ParserState) :
    Except ParseCrash ((Bool × Option Expr) × ParserState) :=
  match fuel with
  | 0 => throw .outOfFuel
  | fuel + 1 =>
    match acceptBinaryOperator priority s with
    | (some binaryOp, s) => do
        let ((ok2, e2?), s) ← parseBinaryExpression fuel (binaryOpPriority binaryOp) s
        if !ok2 then return ((false, e2?), s)
        else do
          let expression ← derefExpr expression?
          let e2 ← derefExpr e2?
          match getBinaryOpResultType binaryOp expression.exprType e2.exprType with
          | none => return ((false, expression?), s)
          | some resultType =>
              parseBinaryOpLoop fuel priority
                (some (.binaryExpr binaryOp (some expression) (some e2) resultType)) s
    | (none, s) =>
        if conditionalOpPriority > priority then
          match accept .question s with
          | (true, s) => do
              let ((ok1, trueExpr?), s) ← parseBinaryExpression fuel
                conditionalOpPriority s
              if !ok1 then return ((false, trueExpr?), s)
              else do
                let (okC, s) := expect .colon s
                if !okC then return ((false, trueExpr?), s)
                else do
                  let ((ok2, falseExpr?), s) ← parseBinaryExpression fuel
                    conditionalOpPriority s
                  if !ok2 then return ((false, falseExpr?), s)
                  else do
                    let trueExpr ← derefExpr trueExpr?
                    let falseExpr ← derefExpr falseExpr?
                    if getTypeCastRank trueExpr.exprType falseExpr.exprType == -1 then
                      return ((false, expression?), s)
                    else
                      parseBinaryOpLoop fuel priority
                        (some (.conditionalExpr expression? (some trueExpr)
                          (some falseExpr) trueExpr.exprType)) s
          | (false, s) => return ((true, expression?), s)
        else return ((true, expression?), s)

/-- `HLSLParser::ParseTerminalExpression` (the out-parameter
`needsEndParen` is the third component). -/
def parseTerminalExpression (fuel : Nat) (s : ParserState) :
    Except ParseCrash ((Bool × Option Expr × Bool) × ParserState) :=
  match fuel with
  | 0 => throw .outOfFuel
  | fuel + 1 =>
    match acceptUnaryOperator true s with
    | (some unaryOp, s) => do
        let ((ok, inner?, needsEndParen), s) ← parseTerminalExpression fuel s
        if !ok then return ((false, inner?, needsEndParen), s)
        else do
          let exprType ←
            if unaryOp = HLSLUnaryOp.Not then
              pure (HLSLType.mk .Bool "" false none false)
            else do
              let inner ← derefExpr inner?
              pure inner.exprType
          return ((true, some (.unaryExpr unaryOp inner? exprType), needsEndParen), s)
    | (none, s) =>
    match accept .lparen s with
    | (true, s) =>
        -- a cast, a parenthesized constructor, or a parenthesized expression
        let ((okT, bt, tn, cst), s) := acceptType false true s
        if okT then
          match accept .lparen s with
          | (true, s) => do
              let ((okC, e?), s) ← parsePartialConstructor fuel bt tn s
              return ((okC, e?, true), s)
          | (false, s) => do
              let castType : HLSLType :=
                { baseType := bt, typeName := tn, constant := cst }
              let (okR, s) := expect .rparen s
              if !okR then
                return ((false, some (.castingExpr castType none castType), false), s)
              else do
                let ((okE, inner?), s) ← parseExpression fuel s
                return ((okE, some (.castingExpr castType inner? castType), false), s)
        else do
          let ((okE, e?), s) ← parseExpression fuel s
          if !okE then return ((false, e?, false), s)
          else
            let (okR, s) := expect .rparen s
            return ((okR, e?, false), s)
    | (false, s) =>
    match acceptFloat s with
    | (some text, s) =>
        return ((true, some (.literalFloatExpr .Float text
          { baseType := .Float, constant := true }), false), s)
    | (none, s) =>
    match acceptInt s with
    | (some value, s) =>
        return ((true, some (.literalIntExpr .Int value
          { baseType := .Int, constant := true }), false), s)
    | (none, s) =>
    match accept .kwTrue s with
    | (true, s) =>
        return ((true, some (.literalBoolExpr true
          { baseType := .Bool, constant := true }), false), s)
    | (false, s) =>
    match accept .kwFalse s with
    | (true, s) =>
        return ((true, some (.literalBoolExpr false
          { baseType := .Bool, constant := true }), false), s)
    | (false, s) =>
      -- a type constructor, or an identifier, followed by the postfix loop
      let ((okT, bt, tn, _), s) := acceptType false false s
      if okT then do
        let (_, s) := expect .lparen s
        let ((okC, e?), s) ← parsePartialConstructor fuel bt tn s
        if !okC then return ((false, e?, false), s)
        else do
          let ((okP, ep?), s) ← parsePostfix fuel e? s
          return ((okP, ep?, false), s)
      else
        match expectIdentifier s with
        | (none, s) => return ((false, none, false), s)
        | (some name, s) =>
            match findVariable s name with
            | some (identifierType, globalFlag) => do
                let ((okP, ep?), s) ← parsePostfix fuel
                  (some (.identifierExpr name globalFlag identifierType)) s
                return ((okP, ep?, false), s)
            | none =>
                if !getIsFunction s name then return ((false, none, false), s)
                else do
                  let ((okP, ep?), s) ← parsePostfix fuel
                    (some (.identifierExpr name true (plainType .Unknown))) s
                  return ((okP, ep?, false), s)

/-- The postfix loop of `ParseTerminalExpression` (the `while (!done)`
over postfix operators, member accesses, array accesses and function
calls). -/
def parsePostfix (fuel : Nat) (expression? : Option Expr) (s : ParserState) :
    Except ParseCrash ((Bool × Option Expr) × ParserState) :=
  match fuel with
  | 0 => throw .outOfFuel
  | fuel + 1 =>
    match acceptUnaryOperator false s with
    | (some op, s) => do
        let expression ← derefExpr expression?
        parsePostfix fuel (some (.unaryExpr op (some expression)
          expression.exprType)) s
    | (none, s) =>
    match accept .dot s with
    | (true, s) =>
        (match expectIdentifier s with
         | (none, s) => return ((false, expression?), s)
         | (some field, s) => do
             let expression ← derefExpr expression?
             match getMemberType s.userTypes expression.exprType field
                 (plainType .Unknown) with
             | .success memberType =>
                 parsePostfix fuel
                   (some (.memberAccessExpr (some expression) field memberType)) s
             | .failure _ => return ((false, expression?), s))
    | (false, s) =>
    match accept .lbracket s with
    | (true, s) => do
        let ((okI, index?), s) ← parseExpression fuel s
        if !okI then return ((false, expression?), s)
        else do
          let (okR, s) := expect .rbracket s
          if !okR then return ((false, expression?), s)
          else do
            let expression ← derefExpr expression?
            if expression.exprType.array then
              parsePostfix fuel (some (.arrayAccessExpr (some expression) index?
                { expression.exprType with array := false, arraySize := none })) s
            else
              match arrayElementBase expression.exprType.baseType with
              | some elementBase =>
                  parsePostfix fuel (some (.arrayAccessExpr (some expression)
                    index? (plainType elementBase))) s
              | none => return ((false, expression?), s)
    | (false, s) =>
    match accept .lparen s with
    | (true, s) => do
        let ((okL, args), s) ← parseExpressionListLoop fuel .rparen false 0 s
        if !okL then return ((false, expression?), s)
        else
          match expression? with
          | none => throw .nullDeref
          | some (.identifierExpr name _ _) =>
              (match matchFunctionCall s.functions intrinsicTable
                  (args.map Expr.exprType) name with
               | .resolved func =>
                   parsePostfix fuel
                     (some (.functionCallExpr func args func.returnType)) s
               | .failed _ => return ((false, expression?), s))
          | some _ => return ((false, expression?), s)
    | (false, s) => return ((true, expression?), s)

/-- `HLSLParser::ParsePartialConstructor`. -/
def parsePartialConstructor (fuel : Nat) (type : HLSLBaseType) (typeName : String)
    (s : ParserState) :
    Except ParseCrash ((Bool × Option Expr) × ParserState) :=
  match fuel with
  | 0 => throw .outOfFuel
  | fuel + 1 => do
    let ((okL, args), s) ← parseExpressionListLoop fuel .rparen false 0 s
    if !okL then return ((false, none), s)
    else
      let ctorType : HLSLType := { baseType := type, typeName := typeName }
      return ((true, some (.constructorExpr ctorType args
        { ctorType with constant := true })), s)

/-- `HLSLParser::ParseExpressionList` (its loop, with the running
expression count for the comma handling). -/
def parseExpressionListLoop (fuel : Nat) (endToken : Token) (allowEmptyEnd : Bool)
    (numExpressions : Nat) (s : ParserState) :
    Except ParseCrash ((Bool × List Expr) × ParserState) :=
  match fuel with
  | 0 => throw .outOfFuel
  | fuel + 1 =>
    match accept endToken s with
    | (true, s) => return ((true, []), s)
    | (false, s) =>
      match accept .endOfStream s with
      | (true, s) => return ((false, []), s)
      | (false, s) => do
        let (okComma, s) :=
          if numExpressions > 0 then expect .comma s else (true, s)
        if !okComma then return ((false, []), s)
        else
          match (if allowEmptyEnd then accept endToken s else (false, s)) with
          | (true, s) => return ((true, []), s)
          | (false, s) => do
            let ((okE, e?), s) ← parseExpression fuel s
            if !okE then return ((false, []), s)
            else do
              let e ← derefExpr e?
              let ((okR, rest), s) ← parseExpressionListLoop fuel endToken
                allowEmptyEnd (numExpressions + 1) s
              return ((okR, e :: rest), s)

/-- The tail of `AcceptDeclaration`'s array handling: parse the size
expression and the closing bracket; the declared type's `arraySize` then
references the freshly allocated size-expression node. -/
def parseArraySizeTail (fuel : Nat) (declType : HLSLType) (name : String)
    (s : ParserState) :
    Except ParseCrash ((Bool × HLSLType × String) × ParserState) :=
  match fuel with
  | 0 => throw .outOfFuel
  | fuel + 1 => do
    let ((okE, _sizeExpr?), s) ← parseExpression fuel s
    if !okE then return ((false, declType, name), s)
    else do
      let (okR, s) := expect .rbracket s
      if !okR then return ((false, declType, name), s)
      else
        return ((true, { declType with arraySize := some s.nextNodeId }, name),
          { s with nextNodeId := s.nextNodeId + 1 })

/-- `HLSLParser::AcceptDeclaration`. -/
def acceptDeclaration (fuel : Nat) (allowUnsizedArray : Bool) (s : ParserState) :
    Except ParseCrash ((Bool × HLSLType × String) × ParserState) :=
  match fuel with
  | 0 => throw .outOfFuel
  | fuel + 1 =>
    let ((okT, bt, tn, cst), s) := acceptType false true s
    if !okT then return ((false, plainType .Unknown, ""), s)
    else
      let baseDeclType : HLSLType := { baseType := bt, typeName := tn, constant := cst }
      match expectIdentifier s with
      | (none, s) => return ((false, baseDeclType, ""), s)
      | (some name, s) =>
          match accept .lbracket s with
          | (false, s) => return ((true, baseDeclType, name), s)
          | (true, s) =>
              let declType := { baseDeclType with array := true }
              match accept .rbracket s with
              | (true, s) =>
                  if allowUnsizedArray then return ((true, declType, name), s)
                  else parseArraySizeTail fuel declType name s
              | (false, s) => parseArraySizeTail fuel declType name s

/-- `HLSLParser::ParseDeclaration`: an accepted declaration is entered
into the scope, then the optional initializer is parsed. -/
def parseDeclaration (fuel : Nat) (s : ParserState) :
    Except ParseCrash ((Bool × Option Declaration) × ParserState) :=
  match fuel with
  | 0 => throw .outOfFuel
  | fuel + 1 => do
    let ((okD, declType, name), s) ← acceptDeclaration fuel true s
    if !okD then return ((false, none), s)
    else
      parseDeclarationAssignment fuel { name := name, type := declType }
        (declareVariable name declType s)

/-- `HLSLParser::ParseDeclarationAssignment`. -/
def parseDeclarationAssignment (fuel : Nat) (declaration : Declaration)
    (s : ParserState) :
    Except ParseCrash ((Bool × Option Declaration) × ParserState) :=
  match fuel with
  | 0 => throw .outOfFuel
  | fuel + 1 =>
    match accept .equal s with
    | (false, s) => return ((true, some declaration), s)
    | (true, s) =>
        if declaration.type.array then do
          let (okB, s) := expect .lbrace s
          if !okB then return ((false, some declaration), s)
          else do
            let ((okL, exprs), s) ← parseExpressionListLoop fuel .rbrace true 0 s
            if !okL then return ((false, some declaration), s)
            else return ((true, some { declaration with assignment := exprs }), s)
        else do
          let ((okE, e?), s) ← parseExpression fuel s
          if !okE then return ((false, some declaration), s)
          else do
            let e ← derefExpr e?
            return ((true, some { declaration with assignment := [e] }), s)

/-- `HLSLParser::ParseStatement` (the claims' statement grammar: empty,
`if`, `for`, `discard`, `break`, `continue`, `return`, then declaration or
expression statement). -/
def parseStatement (fuel : Nat) (returnType : HLSLType) (s : ParserState) :
    Except ParseCrash ((Bool × Option Stmt) × ParserState) :=
  match fuel with
  | 0 => throw .outOfFuel
  | fuel + 1 =>
    match accept .semicolon s with
    | (true, s) => return ((true, none), s)
    | (false, s) =>
    match accept .kwIf s with
    | (true, s) => do
        let (okL, s) := expect .lparen s
        if !okL then return ((false, none), s)
        else do
          let ((okC, cond?), s) ← parseExpression fuel s
          if !okC then return ((false, none), s)
          else do
            let (okR, s) := expect .rparen s
            if !okR then return ((false, none), s)
            else do
              let ((okB, thenBody), s) ← parseStatementOrBlock fuel returnType s
              if !okB then return ((false, none), s)
              else
                match accept .kwElse s with
                | (true, s) => do
                    let ((okE, elseBody), s) ← parseStatementOrBlock fuel returnType s
                    return ((okE, some (.ifStatement cond? thenBody (some elseBody))), s)
                | (false, s) =>
                    return ((true, some (.ifStatement cond? thenBody none)), s)
    | (false, s) =>
    match accept .kwFor s with
    | (true, s) => do
        let (okL, s) := expect .lparen s
        if !okL then return ((false, none), s)
        else do
          let ((okD, initialization?), s) ← parseDeclaration fuel (beginScope s)
          if !okD then return ((false, none), s)
          else do
            let (okS1, s) := expect .semicolon s
            if !okS1 then return ((false, none), s)
            else do
              let ((_, cond?), s) ← parseExpression fuel s
              let (okS2, s) := expect .semicolon s
              if !okS2 then return ((false, none), s)
              else do
                let ((_, increment?), s) ← parseExpression fuel s
                let (okR, s) := expect .rparen s
                if !okR then return ((false, none), s)
                else do
                  let ((okB, body), s) ← parseStatementOrBlock fuel returnType s
                  if !okB then return ((false, none), s)
                  else
                    return ((true, some (.forStatement initialization? cond?
                      increment? body)), endScope s)
    | (false, s) =>
    match accept .kwDiscard s with
    | (true, s) =>
        let (okS, s) := expect .semicolon s
        return ((okS, some .discardStatement), s)
    | (false, s) =>
    match accept .kwBreak s with
    | (true, s) =>
        let (okS, s) := expect .semicolon s
        return ((okS, some .breakStatement), s)
    | (false, s) =>
    match accept .kwContinue s with
    | (true, s) =>
        let (okS, s) := expect .semicolon s
        return ((okS, some .continueStatement), s)
    | (false, s) =>
    match accept .kwReturn s with
    | (true, s) =>
        (match accept .semicolon s with
         | (true, _) =>
             -- `return;`: the expression stays null, yet the cast check
             -- reads `returnStatement->expression->expressionType`
             throw .nullDeref
         | (false, s) => do
             let ((okE, e?), s) ← parseExpression fuel s
             if !okE then return ((false, none), s)
             else do
               let e ← derefExpr e?
               if !checkTypeCast e.exprType returnType then
                 return ((false, none), s)
               else
                 let (okS, s) := expect .semicolon s
                 return ((okS, some (.returnStatement (some e))), s))
    | (false, s) => do
        let ((okD, declaration?), s) ← parseDeclaration fuel s
        if okD then
          let (okS, s) := expect .semicolon s
          return ((okS, declaration?.map .declaration), s)
        else do
          let ((okE, e?), s) ← parseExpression fuel s
          if okE then
            let (okS, s) := expect .semicolon s
            return ((okS, some (.expressionStatement e?)), s)
          else
            let (okS, s) := expect .semicolon s
            return ((okS, none), s)

/-- `HLSLParser::ParseStatementOrBlock`: the parsed statement chain as a
list. -/
def parseStatementOrBlock (fuel : Nat) (returnType : HLSLType) (s : ParserState) :
    Except ParseCrash ((Bool × List Stmt) × ParserState) :=
  match fuel with
  | 0 => throw .outOfFuel
  | fuel + 1 =>
    match accept .lbrace s with
    | (true, s) => do
        let ((okB, stmts), s) ← parseBlock fuel returnType (beginScope s)
        if !okB then return ((false, stmts), s)
        else return ((true, stmts), endScope s)
    | (false, s) => do
        let ((ok, st?), s) ← parseStatement fuel returnType s
        return ((ok, st?.toList), s)

/-- `HLSLParser::ParseBlock`. -/
def parseBlock (fuel : Nat) (returnType : HLSLType) (s : ParserState) :
    Except ParseCrash ((Bool × List Stmt) × ParserState) :=
  match fuel with
  | 0 => throw .outOfFuel
  | fuel + 1 =>
    match accept .rbrace s with
    | (true, s) => return ((true, []), s)
    | (false, s) =>
      match accept .endOfStream s with
      | (true, s) => return ((false, []), s)
      | (false, s) => do
          let ((ok, st?), s) ← parseStatement fuel returnType s
          if !ok then return ((false, []), s)
          else do
            let ((okR, rest), s) ← parseBlock fuel returnType s
            return ((okR, st?.toList ++ rest), s)

end

/-- The success flag of a statement-parse outcome (`none` when the parse
aborted on a crash). -/
def stmtResultOk : Except ParseCrash ((Bool × Option Stmt) × ParserState) → Option Bool
  | .ok ((ok, _), _) => some ok
  | .error _ => none

/-- Whether a successful statement parse produced a `for` statement whose
condition is absent. -/
def forCondAbsent : Except ParseCrash ((Bool × Option Stmt) × ParserState) → Option Bool
  | .ok ((true, some (.forStatement _ cond _ _)), _) => some cond.isNone
  | _ => none

/-- C3: the claim says `for (;;)` is accepted; it is not. The statement
parser's `for` branch insists on `ParseDeclaration` succeeding for the
initialization, and an immediate `;` is not a declaration, so parsing
`for (;;) ;` returns false (no crash: the outcome is a plain failure). -/
theorem claim_C3_for_empty_condition_counterexample :
    stmtResultOk (parseStatement 64 (plainType .Void)
      { tokens := [.kwFor, .lparen, .semicolon, .semicolon, .rparen, .semicolon] })
      = some false := by
  rfl

/-- C3 amended: the `for` initialization must be a declaration, so
`for (;;) ;` is rejected (first conjunct); `for (int i = 0;;) ;` parses
successfully and stores the empty condition as absent (second conjunct);
but the GLSL emitter does not emit an absent condition as empty — it
dereferences the null condition pointer (third conjunct). -/
theorem claim_C3_for_empty_condition_amended :
    stmtResultOk (parseStatement 64 (plainType .Void)
      { tokens := [.kwFor, .lparen, .semicolon, .semicolon, .rparen, .semicolon] })
      = some false ∧
    forCondAbsent (parseStatement 64 (plainType .Void)
      { tokens := [.kwFor, .lparen, .kwInt, .identifier "i", .equal,
        .intLiteral 0, .semicolon, .semicolon, .rparen, .semicolon] })
      = some true ∧
    outputStatements sampleEnv 10 0
      [.forStatement
        (some { name := "i", type := plainType .Int,
                assignment := [.literalIntExpr .Int 0
                  { baseType := .Int, constant := true }] })
        none none []]
      (some (plainType .Void))
      = .error .nullDeref := by
  refine ⟨by rfl, by rfl, by rfl⟩

/-- C5: the claim says `return;` parses successfully with no cast check;
in the code, when the `;` is accepted the return expression stays null,
yet `CheckTypeCast(returnStatement->expression->expressionType, ...)` runs
unconditionally and dereferences it: parsing `return;` crashes. -/
theorem claim_C5_return_without_expression :
    parseStatement 8 (plainType .Void) { tokens := [.kwReturn, .semicolon] }
      = .error .nullDeref := by
  rfl

end M4
